import Mathlib

/-!
Verification development for the viva question-generation pipeline.

The Python sources are shallowly embedded as Lean definitions:
pure helpers become Lean functions, the Postgres tables become explicit
record state with transactions modeled as `Except` results (an error means
the transaction rolled back and the state is unchanged), and external
collaborators (LLM capabilities, blob storage, the queue transport) are
passed in as values or function parameters.
-/

set_option maxHeartbeats 1000000

namespace VivaPipeline

/-- Python exception classes that the handlers in the code distinguish. -/
inductive PyErr where
  | valueError (msg : String)
  | keyError (msg : String)
  | otherError (msg : String)
deriving DecidableEq

/-- Python truthiness of an optional string field: `None` and `""` are falsy. -/
def truthy : Option String → Bool
  | none => false
  | some s => s != ""

/-- Python `str.strip()`: whitespace removed from both ends. -/
def pyStrip (s : String) : String :=
  ⟨((s.data.dropWhile Char.isWhitespace).reverse.dropWhile Char.isWhitespace).reverse⟩

/-- Python `str.lower()` as used on the repo's ASCII metadata keys. -/
def pyLower (s : String) : String := ⟨s.data.map Char.toLower⟩

/-- `_norm` from database.py: `str(value).strip().lower()`. -/
def normStr (s : String) : String := pyLower (pyStrip s)

/-! ### Score extraction (`_extract_score` in viva.py)

`re.search(r"\b([0-9]|10)/10\b", feedback)` is embedded as a left-to-right
scan over the character list; at each position the two alternatives of the
group are tried (they are structurally disjoint: after one digit the next
character must be `/` for the first branch and `0` for the second). -/

/-- `\w` word characters, which the `\b` boundaries are defined against. -/
def isWordChar (c : Char) : Bool := c.isAlphanum || c = '_'

/-- a `\b` boundary holds to the left of the match when the preceding
character (if any) is not a word character. -/
def boundaryBefore : Option Char → Bool
  | none => true
  | some c => !isWordChar c

/-- a `\b` boundary holds to the right of the match when the remaining text
does not begin with a word character. -/
def boundaryAfter : List Char → Bool
  | [] => true
  | c :: _ => !isWordChar c

def digitVal (c : Char) : Nat := c.toNat - 48

/-- the `10/10` alternative of the regex, anchored at the current position. -/
def matchTenAt : List Char → Bool
  | '1' :: '0' :: '/' :: '1' :: '0' :: rest => boundaryAfter rest
  | _ => false

/-- the `[0-9]/10` alternative of the regex, anchored at the current position. -/
def matchDigitAt : List Char → Option Nat
  | d :: '/' :: '1' :: '0' :: rest =>
    if d.isDigit && boundaryAfter rest then some (digitVal d) else none
  | _ => none

/-- one attempt of the regex at a fixed position; `prev` is the character
just before the position (`none` at the start of the string). -/
def scoreMatchAt (prev : Option Char) (s : List Char) : Option Nat :=
  if boundaryBefore prev then
    if matchTenAt s then some 10 else matchDigitAt s
  else none

/-- `re.search`: try each position from the left, return the first match. -/
def searchScore : Option Char → List Char → Option Nat
  | _, [] => none
  | prev, c :: rest =>
    match scoreMatchAt prev (c :: rest) with
    | some n => some n
    | none => searchScore (some c) rest

/-- `_extract_score` from viva.py.  The trailing range check mirrors the
source's `if 0 <= val <= 10` (the lower bound is trivial on `Nat`). -/
def extractScore (feedback : String) : Option Nat :=
  match searchScore none feedback.data with
  | some v => if v ≤ 10 then some v else none
  | none => none

/-! ### Viva dialogue sessions (`start_viva_session` / `handle_viva_message`)

`_SESSIONS` is an association list; the LLM capabilities are passed as
function parameters.  The `Nat` returned alongside each message response
counts how many times the grading capability was invoked during that call. -/

structure VivaSession where
  documentText : String
  questions : List String
  answers : List String
  nextIndex : Nat
  feedback : Option String
  score : Option Nat
deriving DecidableEq

abbrev SessionStore := List (String × VivaSession)

def lookupSession (store : SessionStore) (sid : String) : Option VivaSession :=
  (store.find? (fun p => p.1 == sid)).map (fun p => p.2)

/-- `_SESSIONS[session_id] = {...}`: insert or replace. -/
def insertSession (store : SessionStore) (sid : String) (s : VivaSession) : SessionStore :=
  (sid, s) :: store.filter (fun p => p.1 != sid)

/-- in-place mutation of the stored session dict: every entry under the key
is replaced with the updated session. -/
def setSession (store : SessionStore) (sid : String) (s : VivaSession) : SessionStore :=
  store.map (fun p => if p.1 == sid then (p.1, s) else p)

structure StartPayload where
  student_id : Option String
  unit_code : Option String
  session_year : Option String
  assignment : Option String

structure StartResponse where
  session_id : String
  question : String
  question_number : Nat
  total_questions : Nat
deriving DecidableEq

/-- `_grade_answers`: the grading-capability call plus score extraction.
`grade` stands for the LLM completion on the document/questions/answers
prompt; the source strips the returned content. -/
def gradeAnswers (grade : String → List String → List String → String)
    (documentText : String) (questions answers : List String) : String × Option Nat :=
  let feedback := pyStrip (grade documentText questions answers)
  (feedback, extractScore feedback)

/-- `start_viva_session`.  Collaborator results are passed in as values:
`generated` is the `questions` list produced by `generate_questions_logic`
(or the error it raised), `assignmentContent` is the `content` field of the
student's assignment document (if found), `guidance` is the text returned
by `_load_guidance_text()`, and `freshSessionId` is `uuid.uuid4().hex`. -/
def startVivaSession (store : SessionStore) (payload : StartPayload)
    (generated : Except PyErr (List String)) (assignmentContent : Option String)
    (guidance : String) (freshSessionId : String) :
    Except PyErr (SessionStore × StartResponse) :=
  if !(truthy payload.student_id && truthy payload.unit_code &&
       truthy payload.session_year && truthy payload.assignment) then
    .error (.valueError "Missing required parameters: student_id, unit_code, session_year, assignment.")
  else
    match generated with
    | .error e => .error e
    | .ok questions =>
      if questions.length < 3 then
        .error (.valueError "Could not generate three questions from the document.")
      else
        let assignmentText := assignmentContent.getD ""
        if assignmentText = "" then
          .error (.valueError "No assignment content found for this student.")
        else
          let combined := pyStrip (assignmentText ++ "\n\n" ++ guidance)
          let sess : VivaSession :=
            { documentText := combined, questions := questions, answers := [],
              nextIndex := 0, feedback := none, score := none }
          .ok (insertSession store freshSessionId sess,
               { session_id := freshSessionId, question := questions.headD "",
                 question_number := 1, total_questions := 3 })

/-- the response dicts of `handle_viva_message` have branch-dependent keys;
absent keys are `none`. -/
structure MessageResponse where
  done : Bool
  message : Option String := none
  question : Option String := none
  question_number : Option Nat := none
  total_questions : Option Nat := none
  feedback : Option String := none
  score : Option Nat := none
deriving DecidableEq

/-- `handle_viva_message`.  `clarify` and `grade` are the two LLM
capabilities (`_clarify_question` strips its result).  The `Nat` in the
result is the number of grading-capability invocations made by this call. -/
def handleVivaMessage (store : SessionStore)
    (clarify : String → String → String → String)
    (grade : String → List String → List String → String)
    (sessionId userMessage : Option String) (intent : String) :
    Except PyErr (SessionStore × MessageResponse × Nat) :=
  if !(truthy sessionId && truthy userMessage) then
    .error (.valueError "Missing required parameters: session_id, user_message.")
  else
    let sid := sessionId.getD ""
    let msg := userMessage.getD ""
    match lookupSession store sid with
    | none => .error (.keyError "Session not found.")
    | some sess =>
      if sess.nextIndex ≥ sess.questions.length then
        .ok (store, { done := true, feedback := sess.feedback, score := sess.score }, 0)
      else if intent = "clarification" then
        let q := (sess.questions.get? sess.nextIndex).getD ""
        let clarText := pyStrip (clarify sess.documentText q msg)
        .ok (store,
             { done := false, message := some clarText,
               question_number := some (sess.nextIndex + 1),
               question := some q,
               total_questions := some sess.questions.length }, 0)
      else
        let answers' := sess.answers ++ [pyStrip msg]
        let ni := sess.nextIndex + 1
        if ni ≥ sess.questions.length then
          let graded := gradeAnswers grade sess.documentText sess.questions answers'
          let sess' := { sess with
                         answers := answers',
                         nextIndex := ni,
                         feedback := some graded.1,
                         score := graded.2 }
          .ok (setSession store sid sess',
               { done := true, feedback := some graded.1, score := graded.2,
                 total_questions := some sess.questions.length }, 1)
        else
          let sess' := { sess with answers := answers', nextIndex := ni }
          .ok (setSession store sid sess',
               { done := false, question := some ((sess.questions.get? ni).getD ""),
                 question_number := some (ni + 1),
                 total_questions := some sess.questions.length }, 0)

/-! ### Metadata normalization (`function_app.py`)

`_normalize_assignment` / `_normalize_session` replace each run of
whitespace-or-underscore characters by a single `-` after stripping and
lowercasing; `_normalize_meta` only strips and lowercases. -/

theorem dropWhile_length_le (p : α → Bool) (l : List α) :
    (l.dropWhile p).length ≤ l.length := by
  induction l with
  | nil => simp [List.dropWhile]
  | cons a l ih =>
    by_cases h : p a
    · simpa [List.dropWhile, h] using Nat.le_succ_of_le ih
    · simp [List.dropWhile, h]

/-- the characters of the `[\s_]+` class replaced by `-`. -/
def isNormSep (c : Char) : Bool := c = '_' || c.isWhitespace

/-- worker for `collapseSeps`; `inSep` records whether the previous
character belonged to the separator run already replaced by `-`. -/
def collapseSepsAux : Bool → List Char → List Char
  | _, [] => []
  | inSep, c :: rest =>
    if isNormSep c then
      if inSep then collapseSepsAux true rest
      else '-' :: collapseSepsAux true rest
    else c :: collapseSepsAux false rest

/-- `re.sub(r"[\s_]+", "-", cs)`: collapse each separator run to one `-`. -/
def collapseSeps (cs : List Char) : List Char := collapseSepsAux false cs

/-- `_normalize_assignment` (and `_normalize_session`, which is identical). -/
def normalizeAssignment (s : String) : String := ⟨collapseSeps (normStr s).data⟩

/-! ### Staff-document lookup (`get_staff_document` in database.py)

Only the branch where an `assignment` argument is supplied is embedded:
it is the one exercised by the readiness gate, the dispatcher and the
generator.  Documents are represented by their three key fields; content
is irrelevant to the lookups.  A Mongo `find_one` returns the first
matching document in collection order. -/

structure StaffDoc where
  unit_code : String
  assignment : String
  session_year : String
deriving DecidableEq

/-- `_ci_exact`: anchored, regex-escaped, case-insensitive equality against
the normalized query value; an empty normalized query becomes a `None`
filter, which matches none of the stored string fields. -/
def ciExact (query stored : String) : Bool :=
  let n := normStr query
  if n = "" then false else pyLower stored == n

/-- the separator class `[-_\s]` of the fuzzy assignment pattern. -/
def isSepChar (c : Char) : Bool := c = '-' || c = '_' || c.isWhitespace

/-- worker for `splitSepTokens`; `acc` holds the reversed characters of
the token currently being read. -/
def splitSepTokensAux : List Char → List Char → List (List Char)
  | acc, [] => if acc.isEmpty then [] else [acc.reverse]
  | acc, c :: rest =>
    if isSepChar c then
      if acc.isEmpty then splitSepTokensAux [] rest
      else acc.reverse :: splitSepTokensAux [] rest
    else splitSepTokensAux (c :: acc) rest

/-- `re.split(r"[-_\s]+", s)` with empty pieces dropped. -/
def splitSepTokens (cs : List Char) : List (List Char) := splitSepTokensAux [] cs

/-- consume a (lowercase) token case-insensitively from the front of `s`. -/
def stripTokenCI : List Char → List Char → Option (List Char)
  | [], s => some s
  | _ :: _, [] => none
  | c :: t, x :: s => if x.toLower == c.toLower then stripTokenCI t s else none

/-- the anchored pattern `^t1[-_\s]*t2...[-_\s]*tN$`.  The tokens come from
`splitSepTokens`, so they are nonempty and free of separator characters;
for such tokens the greedy consumption of each separator run is exactly
the regex's backtracking search. -/
def matchSepTokens : List (List Char) → List Char → Bool
  | [], s => s.isEmpty
  | [t], s =>
    match stripTokenCI t s with
    | some rest => rest.isEmpty
    | none => false
  | t :: ts, s =>
    match stripTokenCI t s with
    | some rest => matchSepTokens ts (rest.dropWhile isSepChar)
    | none => false

/-- the fuzzy fallback query: case-insensitive unit/session equality plus
the separator-insensitive assignment pattern.  `na` is the normalized
assignment. -/
def fuzzyAssignmentMatch (na stored : String) : Bool :=
  matchSepTokens (splitSepTokens na.data) stored.data

/-- `get_staff_document` (assignment-supplied branch).  First an exact
normalized-key `find_one`; when that misses and the normalized assignment
is nonempty, the fuzzy variant query. -/
def getStaffDocument (docs : List StaffDoc) (unit session assignment : String) :
    Option StaffDoc :=
  let na := normStr assignment
  let exactQuery : StaffDoc → Bool := fun d =>
    d.unit_code == normStr unit && d.session_year == normStr session &&
      (na == "" || d.assignment == na)
  match docs.find? exactQuery with
  | some d => some d
  | none =>
    if na != "" then
      let tokens := splitSepTokens na.data
      if tokens.isEmpty then none
      else
        docs.find? (fun d =>
          ciExact unit d.unit_code && ciExact session d.session_year &&
            matchSepTokens tokens d.assignment.data)
    else none

/-- `_staff_docs_ready`: all three staff artifacts must be present. -/
def staffDocsReady (briefs rubrics seeds : List StaffDoc)
    (unit assignment session : String) : Bool :=
  (getStaffDocument briefs unit session assignment).isSome &&
  (getStaffDocument rubrics unit session assignment).isSome &&
  (getStaffDocument seeds unit session assignment).isSome

/-! ### Dispatcher (`_enqueue_generation_jobs`) and queue worker
(`question_generation_queue`) -/

/-- `has_generated_questions`: the dedup record id used on both ends. -/
def generatedDocId (student unit assignment session : String) : String :=
  normStr student ++ "_" ++ normStr unit ++ "_" ++ normStr assignment ++ "_" ++
    normStr session

def hasGeneratedQuestions (generatedIds : List String)
    (student unit assignment session : String) : Bool :=
  generatedIds.contains (generatedDocId student unit assignment session)

/-- a student-assignment document as projected by `get_student_assignments`. -/
structure StudentDoc where
  student_id : Option String
deriving DecidableEq

structure JobPayload where
  student_id : String
  unit_code : String
  assignment : String
  session_year : String
  staff_id : Option String
  alternate_questions : List String
deriving DecidableEq

/-- the per-student enqueue loop of `_enqueue_generation_jobs`, run after
the readiness gate passed and the key fields were normalized: skip a
document without a truthy `student_id`, skip a student who already has a
generated-questions record, send one message for each remaining student. -/
def enqueueJobs (studentDocs : List StudentDoc) (generatedIds : List String)
    (unit assignment session : String) (staffId : Option String)
    (alts : List String) : List JobPayload :=
  studentDocs.filterMap (fun d =>
    match d.student_id with
    | none => none
    | some sid =>
      if sid = "" then none
      else if hasGeneratedQuestions generatedIds sid unit assignment session then none
      else some { student_id := sid, unit_code := unit, assignment := assignment,
                  session_year := session, staff_id := staffId,
                  alternate_questions := alts })

/-- `_enqueue_generation_jobs`: `ready` is the outcome of the bounded
readiness-retry poll (`_staff_docs_ready` under `_QUEUE_READY_RETRIES`
attempts); when it stayed false the function logs and returns without
enqueuing anything. -/
def enqueueGenerationJobs (ready : Bool) (studentDocs : List StudentDoc)
    (generatedIds : List String) (unit assignment session : String)
    (staffId : Option String) (alts : List String) : List JobPayload :=
  if !ready then []
  else enqueueJobs studentDocs generatedIds (normStr unit)
    (normalizeAssignment assignment) (normalizeAssignment session) staffId alts

/-- what `generate_questions_logic` hands back to the worker. -/
structure GenOutput where
  questions : List (Option String)
  reference : List String
deriving DecidableEq

/-- observable outcome of one `question_generation_queue` invocation.
`raised = some e` means the exception propagated to the queue transport
(which will redeliver); `raised = none` means the function returned and
the job is settled. -/
structure WorkerRun where
  raised : Option PyErr
  generateCalled : Bool
  postgresAttempted : Bool
deriving DecidableEq

/-- `question_generation_queue`.  The three effectful steps — generation,
the Mongo `store_generated_questions` write, and the Postgres
`_store_questions_postgres` write — are supplied as `Except` values.
The handler structure of the source: `except ValueError` around the whole
body logs and returns, `except Exception` logs and re-raises, and the
Postgres call sits in its own inner `except Exception` that only logs. -/
def questionGenerationQueue (payloadParses fieldsPresent hasGen : Bool)
    (genResult : Except PyErr GenOutput)
    (mongoStore : Except PyErr Unit)
    (pgStore : Except PyErr Unit) : WorkerRun :=
  if !payloadParses then
    { raised := none, generateCalled := false, postgresAttempted := false }
  else if !fieldsPresent then
    { raised := none, generateCalled := false, postgresAttempted := false }
  else if hasGen then
    { raised := none, generateCalled := false, postgresAttempted := false }
  else
    match genResult with
    | .error (.valueError _) =>
      { raised := none, generateCalled := true, postgresAttempted := false }
    | .error e =>
      { raised := some e, generateCalled := true, postgresAttempted := false }
    | .ok _ =>
      match mongoStore with
      | .error (.valueError _) =>
        { raised := none, generateCalled := true, postgresAttempted := false }
      | .error e =>
        { raised := some e, generateCalled := true, postgresAttempted := false }
      | .ok _ =>
        match pgStore with
        | .error _ =>
          { raised := none, generateCalled := true, postgresAttempted := true }
        | .ok _ =>
          { raised := none, generateCalled := true, postgresAttempted := true }

/-! ### Postgres persistence layer (`function_app.py`)

The three tables are explicit lists of rows; `staffTable` / `studentTable`
are the key sets of the foreign-key target tables (staff and student
identities provisioned by another system).  A transaction is one call
returning `Except`: `.error` means the exception rolled the transaction
back, so the caller's state is unchanged.  `clock` supplies the
`createdAt` column default for new rows. -/

structure QuestionSetRow where
  questionSetId : String
  name : String
  unitCode : String
  assessmentName : String
  staffId : Option String
  createdAt : Nat
deriving DecidableEq

structure QuestionRowRec where
  questionId : String
  questionText : String
  referenceText : Option String
  questionSetId : String
  studentId : Option String
  alternateQuestion : Option String
deriving DecidableEq

structure SessionRec where
  sessionId : String
  studentId : String
  questionSetId : String
  status : String
  remainingAttempt : Nat
deriving DecidableEq

structure PgDB where
  questionSets : List QuestionSetRow
  questionRows : List QuestionRowRec
  sessions : List SessionRec
  staffTable : List String
  studentTable : List String
  clock : Nat
deriving DecidableEq

/-- a `psycopg2.Error`: either pgcode 23503 with `diag.constraint_name`,
or any other database error. -/
inductive PgError where
  | fkViolation (constraint : String)
  | otherError (msg : String)
deriving DecidableEq

def isFkViolation : PgError → Bool
  | .fkViolation _ => true
  | .otherError _ => false

/-- `getattr(e.diag, "constraint_name", "")` -/
def constraintOf : PgError → String
  | .fkViolation c => c
  | .otherError _ => ""

/-- Python's `needle in haystack` substring test. -/
def containsSub (needle haystack : List Char) : Bool :=
  match haystack with
  | [] => needle.isEmpty
  | _ :: rest => needle.isPrefixOf haystack || containsSub needle rest

def substrIn (needle haystack : String) : Bool := containsSub needle.data haystack.data

/-- the `WHERE "unitCode" = %s AND "assessmentName" = %s AND "name" = %s`
filter of the set lookup. -/
def setMatchesKey (unit assignment name : String) (r : QuestionSetRow) : Bool :=
  r.unitCode == unit && r.assessmentName == assignment && r.name == name

/-- `ORDER BY "createdAt" DESC LIMIT 1` over the matching rows (ties broken
towards the earlier row; created rows get strictly increasing clocks). -/
def newestSet : List QuestionSetRow → Option QuestionSetRow
  | [] => none
  | r :: rs =>
    match newestSet rs with
    | none => some r
    | some b => if b.createdAt > r.createdAt then some b else some r

def questionSetName (unit assignment session : String) : String :=
  unit ++ "_" ++ assignment ++ "_" ++ session

/-- `_get_or_create_question_set`.  The `pg_advisory_xact_lock(hashtext(key))`
taken first serializes the whole read-check-create sequence per key across
concurrent workers; it is modeled by treating this call as one atomic step.
`freshId` stands for `str(uuid.uuid4())`.  The staff-id foreign key can
fire both on the backfill `UPDATE` and on the `INSERT`. -/
def getOrCreateQuestionSet (db : PgDB) (unit assignment session : String)
    (staffId : Option String) (freshId : String) : Except PgError (String × PgDB) :=
  let name := questionSetName unit assignment session
  match newestSet (db.questionSets.filter (setMatchesKey unit assignment name)) with
  | some row =>
    match staffId with
    | some st =>
      if st != "" && !(truthy row.staffId) then
        if db.staffTable.contains st then
          .ok (row.questionSetId,
            { db with
              questionSets := db.questionSets.map (fun r =>
                if r.questionSetId == row.questionSetId then { r with staffId := some st }
                else r) })
        else .error (.fkViolation "PersonalisedQuestionSets_staffId_fkey")
      else .ok (row.questionSetId, db)
    | none => .ok (row.questionSetId, db)
  | none =>
    match staffId with
    | some st =>
      if st != "" then
        if db.staffTable.contains st then
          .ok (freshId,
            { db with
              questionSets := db.questionSets ++
                [{ questionSetId := freshId, name := name, unitCode := unit,
                   assessmentName := assignment, staffId := some st,
                   createdAt := db.clock }],
              clock := db.clock + 1 })
        else .error (.fkViolation "PersonalisedQuestionSets_staffId_fkey")
      else
        .ok (freshId,
          { db with
            questionSets := db.questionSets ++
              [{ questionSetId := freshId, name := name, unitCode := unit,
                 assessmentName := assignment, staffId := none,
                 createdAt := db.clock }],
            clock := db.clock + 1 })
    | none =>
      .ok (freshId,
        { db with
          questionSets := db.questionSets ++
            [{ questionSetId := freshId, name := name, unitCode := unit,
               assessmentName := assignment, staffId := none,
               createdAt := db.clock }],
          clock := db.clock + 1 })

/-- one of the row tuples built by `_store_questions_postgres` before the
retry loop: `(uuid, str(question), reference_text, student_id, alternate_text)`. -/
structure PreRow where
  questionId : String
  questionText : String
  referenceText : Option String
  studentId : String
  alternateText : Option String
deriving DecidableEq

/-- the `DELETE ... WHERE "questionSetId" = %s AND "studentId" = %s`
(respectively `... IS NULL`) filter. -/
def rowMatchesDelete (qsid : String) (studentKey : Option String)
    (q : QuestionRowRec) : Bool :=
  q.questionSetId == qsid &&
    (match studentKey with
     | some sid => q.studentId == some sid
     | none => q.studentId == none)

/-- the body of `_attempt_insert` after the set id is resolved: delete the
existing rows for `(question_set_id, student_id)`, bulk-insert the new
rows, and (when the student id is kept) conditionally create the session.
The studentId foreign keys of `PersonalisedQuestions` and `Sessions` are
checked; the questionSetId foreign key references a row read or created in
the same transaction and therefore cannot fire. -/
def replaceQuestionsForStudent (db : PgDB) (qsid studentId : String)
    (includeStudent : Bool) (rows : List PreRow) (freshSessionId : String) :
    Except PgError PgDB :=
  let studentKey : Option String := if includeStudent then some studentId else none
  let kept := db.questionRows.filter (fun q => !(rowMatchesDelete qsid studentKey q))
  if includeStudent && !rows.isEmpty && !(db.studentTable.contains studentId) then
    .error (.fkViolation "PersonalisedQuestions_studentId_fkey")
  else
    let newRows : List QuestionRowRec := rows.map (fun r =>
      { questionId := r.questionId, questionText := r.questionText,
        referenceText := r.referenceText, questionSetId := qsid,
        studentId := if includeStudent then some r.studentId else none,
        alternateQuestion := r.alternateText })
    let db1 := { db with questionRows := kept ++ newRows }
    if includeStudent then
      if db1.sessions.any (fun s => s.studentId == studentId && s.questionSetId == qsid) then
        .ok db1
      else if db1.studentTable.contains studentId then
        .ok { db1 with
              sessions := db1.sessions ++
                [{ sessionId := freshSessionId, studentId := studentId,
                   questionSetId := qsid, status := "READY_TO_START",
                   remainingAttempt := 1 }] }
      else .error (.fkViolation "Sessions_studentId_fkey")
    else .ok db1

/-- `_attempt_insert`: one whole transaction (`with conn` / `with cursor`).
An error rolls everything back, so the caller keeps the original state. -/
def attemptInsert (db : PgDB) (studentId unit assignment session : String)
    (effStaffId : Option String) (includeStudent : Bool) (rows : List PreRow)
    (freshSetId freshSessionId : String) : Except PgError PgDB :=
  match getOrCreateQuestionSet db unit assignment session effStaffId freshSetId with
  | .error e => .error e
  | .ok (qsid, db1) =>
    replaceQuestionsForStudent db1 qsid studentId includeStudent rows freshSessionId

/-- the `for _ in range(3)` retry ladder of `_store_questions_postgres`.
`attempt i eff inc` is the `i`-th `_attempt_insert` try (uuids are fresh
per try).  `.ok none` is the Python `for` loop falling off the end, which
returns `None` with nothing stored; the ladder theorems show at most two
retries ever happen, so this is unreachable for the concrete attempt. -/
def fkRetryLoop (attempt : Nat → Option String → Bool → Except PgError PgDB) :
    Nat → Nat → Option String → Bool → Except PgError (Option PgDB)
  | 0, _, _, _ => .ok none
  | fuel + 1, i, effStaff, includeStudent =>
    match attempt i effStaff includeStudent with
    | .ok db => .ok (some db)
    | .error e =>
      if isFkViolation e &&
          substrIn "PersonalisedQuestionSets_staffId_fkey" (constraintOf e) &&
          truthy effStaff then
        fkRetryLoop attempt fuel (i + 1) none includeStudent
      else if isFkViolation e &&
          substrIn "PersonalisedQuestions_studentId_fkey" (constraintOf e) &&
          includeStudent then
        fkRetryLoop attempt fuel (i + 1) effStaff false
      else .error e

/-- the row construction of `_store_questions_postgres`: `None` questions
are skipped, the reference and alternate lists are indexed by the original
enumeration position and padded with `None` past their ends, alternates
are stringified and stripped.  `rowIds` models the generated uuids. -/
def buildPreRows (studentId : String) (questions : List (Option String))
    (reference : List String) (alternates : List (Option String))
    (rowIds : Nat → String) : List PreRow :=
  questions.enum.filterMap (fun p =>
    match p.2 with
    | none => none
    | some q =>
      some { questionId := rowIds p.1, questionText := q,
             referenceText := reference.get? p.1,
             studentId := studentId,
             alternateText := ((alternates.get? p.1).bind id).map pyStrip })

/-- `_store_questions_postgres`: early-out on empty input, build the row
tuples once, then run the ladder starting from the given `staff_id` and
with the student id included.  `setIds`/`sessionIds` model the uuids
generated inside each attempt. -/
def storeQuestionsPostgres (db : PgDB) (studentId unit assignment session : String)
    (staffId : Option String) (questions : List (Option String))
    (reference : List String) (alternates : List (Option String))
    (rowIds setIds sessionIds : Nat → String) : Except PgError (Option PgDB) :=
  if questions.isEmpty then .ok none
  else
    let rows := buildPreRows studentId questions reference alternates rowIds
    if rows.isEmpty then .ok none
    else
      fkRetryLoop
        (fun i eff inc =>
          attemptInsert db studentId unit assignment session eff inc rows
            (setIds i) (sessionIds i))
        3 0 staffId true

/-! ### Supporting lemmas -/

theorem truthy_some_of_ne {s : String} (h : s ≠ "") : truthy (some s) = true := by
  simp [truthy, h]

/-! ### C9: clarification leaves the session unchanged -/

/-- C9: while a session is awaiting answer `i` (cursor strictly below the
question count), a message with intent `clarification` invokes the
clarification capability on the current question and the user's request
and returns its text, the session store is returned unchanged (cursor
still `i`, question and answer lists untouched), and the grading
capability is not invoked. -/
theorem clarification_preserves_session
    (store : SessionStore) (sid msg : String) (sess : VivaSession)
    (clarify : String → String → String → String)
    (grade : String → List String → List String → String)
    (hsid : sid ≠ "") (hmsg : msg ≠ "")
    (hfind : lookupSession store sid = some sess)
    (hidx : sess.nextIndex < sess.questions.length) :
    handleVivaMessage store clarify grade (some sid) (some msg) "clarification" =
      .ok (store,
        { done := false,
          message := some (pyStrip (clarify sess.documentText
            ((sess.questions.get? sess.nextIndex).getD "") msg)),
          question_number := some (sess.nextIndex + 1),
          question := some ((sess.questions.get? sess.nextIndex).getD ""),
          total_questions := some sess.questions.length }, 0) := by
  simp only [handleVivaMessage, truthy_some_of_ne hsid, truthy_some_of_ne hmsg,
    Bool.and_self, Bool.not_true, Bool.false_eq_true, if_false, Option.getD_some, hfind,
    Nat.not_le.mpr hidx, ite_false, if_true, Bool.and_true]

/-- C9 witness. -/
theorem clarification_preserves_session_witness :
    handleVivaMessage [("s1", ⟨"doc", ["q1", "q2", "q3"], ["a1"], 1, none, none⟩)]
        (fun _ _ _ => "a hint") (fun _ _ _ => "graded")
        (some "s1") (some "please clarify") "clarification" =
      .ok ([("s1", ⟨"doc", ["q1", "q2", "q3"], ["a1"], 1, none, none⟩)],
        { done := false,
          message := some "a hint",
          question_number := some 2,
          question := some "q2",
          total_questions := some 3 }, 0) := by
  have h := clarification_preserves_session
    [("s1", ⟨"doc", ["q1", "q2", "q3"], ["a1"], 1, none, none⟩)]
    "s1" "please clarify" ⟨"doc", ["q1", "q2", "q3"], ["a1"], 1, none, none⟩
    (fun _ _ _ => "a hint") (fun _ _ _ => "graded")
    (by decide) (by decide) (by rfl) (by decide)
  simpa [pyStrip] using h

/-! ### C10: `length answers = next_index` at all times -/

/-- the session invariant: the number of recorded answers equals the cursor. -/
def answersInvariant (s : VivaSession) : Prop := s.answers.length = s.nextIndex

/-- every session stored in the map satisfies the invariant. -/
def storeInvariant (store : SessionStore) : Prop :=
  ∀ p ∈ store, answersInvariant p.2

theorem lookupSession_mem {store : SessionStore} {sid : String} {s : VivaSession}
    (h : lookupSession store sid = some s) : ∃ p ∈ store, p.2 = s := by
  unfold lookupSession at h
  cases hf : store.find? (fun p => p.1 == sid) with
  | none => simp [hf] at h
  | some p =>
    refine ⟨p, List.mem_of_find?_eq_some hf, ?_⟩
    simp [hf] at h
    exact h

theorem mem_setSession {store : SessionStore} {sid : String} {s' : VivaSession}
    {p : String × VivaSession} (h : p ∈ setSession store sid s') :
    p.2 = s' ∨ p ∈ store := by
  unfold setSession at h
  rcases List.mem_map.mp h with ⟨q, hq, rfl⟩
  by_cases hk : q.1 == sid
  · simp [hk]
  · simp [hk]
    right
    exact hq

theorem mem_insertSession {store : SessionStore} {sid : String} {s' : VivaSession}
    {p : String × VivaSession} (h : p ∈ insertSession store sid s') :
    p.2 = s' ∨ p ∈ store := by
  unfold insertSession at h
  rcases List.mem_cons.mp h with h | h
  · left; rw [h]
  · right; exact List.mem_of_mem_filter h

/-- C10: every reachable session satisfies `length answers = next_index`:
session creation establishes it with an empty answer list and cursor 0;
handling any message preserves it for every stored session (a clarification
or post-completion message changes nothing, an answer appends exactly one
answer while incrementing the cursor by exactly one). -/
theorem viva_answers_length_invariant :
    (∀ (store : SessionStore) (payload : StartPayload)
       (gen : Except PyErr (List String)) (ac : Option String) (guid fid : String)
       (store' : SessionStore) (resp : StartResponse),
       startVivaSession store payload gen ac guid fid = .ok (store', resp) →
       storeInvariant store →
       storeInvariant store' ∧
         ∃ s, lookupSession store' resp.session_id = some s ∧
           s.answers = [] ∧ s.nextIndex = 0) ∧
    (∀ (store : SessionStore)
       (clarify : String → String → String → String)
       (grade : String → List String → List String → String)
       (sessionId userMessage : Option String) (intent : String)
       (store' : SessionStore) (resp : MessageResponse) (k : Nat),
       handleVivaMessage store clarify grade sessionId userMessage intent =
         .ok (store', resp, k) →
       storeInvariant store → storeInvariant store') := by
  constructor
  · intro store payload gen ac guid fid store' resp h hinv
    unfold startVivaSession at h
    split at h
    · exact absurd h (by simp)
    · split at h
      · exact absurd h (by simp)
      · rename_i qs
        split at h
        · exact absurd h (by simp)
        · dsimp only at h
          split at h
          · exact absurd h (by simp)
          · rw [Except.ok.injEq, Prod.mk.injEq] at h
            obtain ⟨hstore, hresp⟩ := h
            constructor
            · intro p hp
              rw [← hstore] at hp
              rcases mem_insertSession hp with h | h
              · rw [h]; rfl
              · exact hinv p h
            · rw [← hstore, ← hresp]
              refine ⟨⟨pyStrip (ac.getD "" ++ "\n\n" ++ guid), qs, [], 0, none, none⟩,
                ?_, rfl, rfl⟩
              simp [lookupSession, insertSession, List.find?]
  · intro store clarify grade sessionId userMessage intent store' resp k h hinv
    unfold handleVivaMessage at h
    split at h
    · exact absurd h (by simp)
    · dsimp only at h
      cases hfind : lookupSession store (sessionId.getD "") with
      | none =>
        simp only [hfind] at h
        exact absurd h (by simp)
      | some sess =>
        simp only [hfind] at h
        have hsessinv : answersInvariant sess := by
          obtain ⟨p, hp, hps⟩ := lookupSession_mem hfind
          rw [← hps]
          exact hinv p hp
        split at h
        · rw [Except.ok.injEq, Prod.mk.injEq] at h
          rw [← h.1]
          exact hinv
        · split at h
          · rw [Except.ok.injEq, Prod.mk.injEq] at h
            rw [← h.1]
            exact hinv
          · split at h
            all_goals
              rw [Except.ok.injEq, Prod.mk.injEq] at h
              rw [← h.1]
              intro p hp
              rcases mem_setSession hp with hps | hps
              · rw [hps]
                unfold answersInvariant at hsessinv ⊢
                simp [hsessinv]
              · exact hinv p hps

/-- C10 witness. -/
theorem viva_answers_length_invariant_witness :
    storeInvariant [("s1", ⟨"d", ["q1", "q2", "q3"], ["x"], 1, none, none⟩)] ∧
    storeInvariant [("s1", ⟨"d", ["q1", "q2", "q3"], ["x", "y"], 2, none, none⟩)] := by
  have hstep := viva_answers_length_invariant.2
    [("s1", ⟨"d", ["q1", "q2", "q3"], ["x"], 1, none, none⟩)]
    (fun _ _ _ => "c") (fun _ _ _ => "g") (some "s1") (some "y") "answer"
    [("s1", ⟨"d", ["q1", "q2", "q3"], ["x", "y"], 2, none, none⟩)]
    { done := false, question := some "q3", question_number := some 3,
      total_questions := some 3 } 0
    (by simp [handleVivaMessage, truthy, lookupSession, List.find?, setSession,
          pyStrip])
    (by intro p hp; simp at hp; rw [hp]; rfl)
  refine ⟨by intro p hp; simp at hp; rw [hp]; rfl, hstep⟩

/-! ### C4: the three-answer viva flow -/

theorem setSession_skips (store : SessionStore) (sid : String) (s1 : VivaSession) :
    setSession (store.filter (fun p => p.1 != sid)) sid s1 =
      store.filter (fun p => p.1 != sid) := by
  unfold setSession
  induction store with
  | nil => rfl
  | cons p rest ih =>
    by_cases hp : p.1 != sid
    · simp only [List.filter_cons, hp, if_true, List.map_cons]
      rw [if_neg (by simpa using hp)]
      exact congrArg (p :: ·) ih
    · simp only [List.filter_cons, hp, if_false]
      exact ih

theorem setSession_insert (store : SessionStore) (sid : String) (s0 s1 : VivaSession) :
    setSession ((sid, s0) :: store.filter (fun p => p.1 != sid)) sid s1 =
      (sid, s1) :: store.filter (fun p => p.1 != sid) := by
  unfold setSession
  simp only [List.map_cons, beq_self_eq_true, if_true]
  have h := setSession_skips store sid s1
  unfold setSession at h
  rw [h]

/-- C4: starting a viva with exactly 3 generated questions creates the
session at cursor 0 and returns question 1 (while fewer than 3 questions
is a ValueError before any session is created); three answer messages
drive the cursor 0 → 1 → 2 → 3 appending the stripped answers, the third
invokes the grading capability exactly once with the combined document
text, all three questions and all three stripped answers, and stores its
feedback and extracted score; any later message — whatever its content or
intent — returns the same stored feedback and score with no further
grading call. -/
theorem viva_session_three_answer_flow
    (store0 : SessionStore) (sid a u y asgn aText guid q1 q2 q3 m1 m2 m3 m4 intent4 : String)
    (clarify : String → String → String → String)
    (grade : String → List String → List String → String)
    (ha : a ≠ "") (hu : u ≠ "") (hy : y ≠ "") (hasgn : asgn ≠ "")
    (haText : aText ≠ "") (hm1 : m1 ≠ "") (hm2 : m2 ≠ "") (hm3 : m3 ≠ "")
    (hm4 : m4 ≠ "") (hsid : sid ≠ "") :
    (∀ qs' : List String, qs'.length < 3 →
       startVivaSession store0 ⟨some a, some u, some y, some asgn⟩ (.ok qs')
           (some aText) guid sid =
         .error (.valueError "Could not generate three questions from the document.")) ∧
    startVivaSession store0 ⟨some a, some u, some y, some asgn⟩ (.ok [q1, q2, q3])
        (some aText) guid sid =
      .ok ((sid, ⟨pyStrip (aText ++ "\n\n" ++ guid), [q1, q2, q3], [], 0, none, none⟩) ::
             store0.filter (fun p => p.1 != sid),
           ⟨sid, q1, 1, 3⟩) ∧
    handleVivaMessage
        ((sid, ⟨pyStrip (aText ++ "\n\n" ++ guid), [q1, q2, q3], [], 0, none, none⟩) ::
          store0.filter (fun p => p.1 != sid)) clarify grade
        (some sid) (some m1) "answer" =
      .ok ((sid, ⟨pyStrip (aText ++ "\n\n" ++ guid), [q1, q2, q3], [pyStrip m1], 1,
              none, none⟩) :: store0.filter (fun p => p.1 != sid),
           { done := false, question := some q2, question_number := some 2,
             total_questions := some 3 }, 0) ∧
    handleVivaMessage
        ((sid, ⟨pyStrip (aText ++ "\n\n" ++ guid), [q1, q2, q3], [pyStrip m1], 1,
            none, none⟩) :: store0.filter (fun p => p.1 != sid)) clarify grade
        (some sid) (some m2) "answer" =
      .ok ((sid, ⟨pyStrip (aText ++ "\n\n" ++ guid), [q1, q2, q3],
              [pyStrip m1, pyStrip m2], 2, none, none⟩) ::
             store0.filter (fun p => p.1 != sid),
           { done := false, question := some q3, question_number := some 3,
             total_questions := some 3 }, 0) ∧
    handleVivaMessage
        ((sid, ⟨pyStrip (aText ++ "\n\n" ++ guid), [q1, q2, q3],
            [pyStrip m1, pyStrip m2], 2, none, none⟩) ::
          store0.filter (fun p => p.1 != sid)) clarify grade
        (some sid) (some m3) "answer" =
      .ok ((sid, ⟨pyStrip (aText ++ "\n\n" ++ guid), [q1, q2, q3],
              [pyStrip m1, pyStrip m2, pyStrip m3], 3,
              some (pyStrip (grade (pyStrip (aText ++ "\n\n" ++ guid)) [q1, q2, q3]
                [pyStrip m1, pyStrip m2, pyStrip m3])),
              extractScore (pyStrip (grade (pyStrip (aText ++ "\n\n" ++ guid)) [q1, q2, q3]
                [pyStrip m1, pyStrip m2, pyStrip m3]))⟩) ::
             store0.filter (fun p => p.1 != sid),
           { done := true,
             feedback := some (pyStrip (grade (pyStrip (aText ++ "\n\n" ++ guid))
               [q1, q2, q3] [pyStrip m1, pyStrip m2, pyStrip m3])),
             score := extractScore (pyStrip (grade (pyStrip (aText ++ "\n\n" ++ guid))
               [q1, q2, q3] [pyStrip m1, pyStrip m2, pyStrip m3])),
             total_questions := some 3 }, 1) ∧
    handleVivaMessage
        ((sid, ⟨pyStrip (aText ++ "\n\n" ++ guid), [q1, q2, q3],
            [pyStrip m1, pyStrip m2, pyStrip m3], 3,
            some (pyStrip (grade (pyStrip (aText ++ "\n\n" ++ guid)) [q1, q2, q3]
              [pyStrip m1, pyStrip m2, pyStrip m3])),
            extractScore (pyStrip (grade (pyStrip (aText ++ "\n\n" ++ guid)) [q1, q2, q3]
              [pyStrip m1, pyStrip m2, pyStrip m3]))⟩) ::
          store0.filter (fun p => p.1 != sid)) clarify grade
        (some sid) (some m4) intent4 =
      .ok ((sid, ⟨pyStrip (aText ++ "\n\n" ++ guid), [q1, q2, q3],
              [pyStrip m1, pyStrip m2, pyStrip m3], 3,
              some (pyStrip (grade (pyStrip (aText ++ "\n\n" ++ guid)) [q1, q2, q3]
                [pyStrip m1, pyStrip m2, pyStrip m3])),
              extractScore (pyStrip (grade (pyStrip (aText ++ "\n\n" ++ guid)) [q1, q2, q3]
                [pyStrip m1, pyStrip m2, pyStrip m3]))⟩) ::
             store0.filter (fun p => p.1 != sid),
           { done := true,
             feedback := some (pyStrip (grade (pyStrip (aText ++ "\n\n" ++ guid))
               [q1, q2, q3] [pyStrip m1, pyStrip m2, pyStrip m3])),
             score := extractScore (pyStrip (grade (pyStrip (aText ++ "\n\n" ++ guid))
               [q1, q2, q3] [pyStrip m1, pyStrip m2, pyStrip m3])) }, 0) := by
  refine ⟨?_, ?_, ?_, ?_, ?_, ?_⟩
  · intro qs' hlen
    simp [startVivaSession, truthy, ha, hu, hy, hasgn, hlen]
  · simp [startVivaSession, truthy, ha, hu, hy, hasgn, haText, insertSession]
  · simp [handleVivaMessage, truthy, hsid, hm1, lookupSession, List.find?,
      setSession_insert]
  · simp [handleVivaMessage, truthy, hsid, hm2, lookupSession, List.find?,
      setSession_insert]
  · simp [handleVivaMessage, truthy, hsid, hm3, lookupSession, List.find?,
      setSession_insert, gradeAnswers]
  · simp [handleVivaMessage, truthy, hsid, hm4, lookupSession, List.find?]

/-- C4 witness. -/
theorem viva_session_three_answer_flow_witness :
    handleVivaMessage
        [("sid1", ⟨"doc text", ["qa", "qb", "qc"], ["v", "w"], 2, none, none⟩)]
        (fun _ _ _ => "hint") (fun _ _ _ => "Overall score: 7/10")
        (some "sid1") (some "final answer") "answer" =
      .ok ([("sid1", ⟨"doc text", ["qa", "qb", "qc"], ["v", "w", "final answer"], 3,
              some "Overall score: 7/10", some 7⟩)],
           { done := true, feedback := some "Overall score: 7/10", score := some 7,
             total_questions := some 3 }, 1) := by
  have h := (viva_session_three_answer_flow [] "sid1" "s" "u" "y" "asg" "doc text" ""
    "qa" "qb" "qc" "v" "w" "final answer" "again" "answer"
    (fun _ _ _ => "hint") (fun _ _ _ => "Overall score: 7/10")
    (by decide) (by decide) (by decide) (by decide) (by decide) (by decide)
    (by decide) (by decide) (by decide) (by decide)).2.2.2.2.1
  have hs : pyStrip "v" = "v" ∧ pyStrip "w" = "w" ∧
      pyStrip "final answer" = "final answer" ∧
      pyStrip "doc text" = "doc text" ∧
      pyStrip "Overall score: 7/10" = "Overall score: 7/10" ∧
      extractScore "Overall score: 7/10" = some 7 := by decide
  simpa [hs.1, hs.2.1, hs.2.2.1, hs.2.2.2.1, hs.2.2.2.2.1, hs.2.2.2.2.2,
    List.filter] using h

/-! ### C5: queue-worker failure semantics -/

/-- C5 counterexample: the claim states that any store error while
persisting the generated questions is re-raised to the queue transport;
but when the Postgres persistence step fails (here with a non-ValueError
database outage) the worker logs it and returns normally — `raised = none`,
the job is dropped and never redelivered. -/
theorem worker_pg_store_error_swallowed :
    (questionGenerationQueue true true false (.ok ⟨[some "Q1"], ["R1"]⟩) (.ok ())
        (.error (.otherError "postgres down"))).raised = none ∧
    (questionGenerationQueue true true false (.ok ⟨[some "Q1"], ["R1"]⟩) (.ok ())
        (.error (.otherError "postgres down"))).postgresAttempted = true := by
  exact ⟨rfl, rfl⟩

/-- C5 (amended): a ValueError from generation or the Mongo store step —
including the missing-prerequisite-documents failure — is logged and the
job is dropped (not re-raised); any non-ValueError failure from those two
steps is re-raised so the transport's redelivery applies; and a failure of
the Postgres persistence step, of any kind, is logged and dropped rather
than re-raised. -/
theorem worker_error_handling (gen : Except PyErr GenOutput)
    (mongo pg : Except PyErr Unit) :
    (questionGenerationQueue true true false gen mongo pg).raised =
      (match gen, mongo with
       | .error (.valueError _), _ => none
       | .error e, _ => some e
       | .ok _, .error (.valueError _) => none
       | .ok _, .error e => some e
       | .ok _, .ok _ => none) := by
  cases gen with
  | error e => cases e <;> rfl
  | ok g =>
    cases mongo with
    | error e => cases e <;> rfl
    | ok u => cases pg with
      | error e => rfl
      | ok v => rfl

/-! ### C7: dedup at the dispatcher and at the worker -/

/-- C7: generation jobs are deduplicated on the (student, unit, assignment,
session) key at both ends: the dispatcher never enqueues a job for a
student who already has a generated-questions record — so a dispatch in
which every student already has one enqueues zero jobs — and the queue
worker that receives a job re-checks the record and exits early without
invoking generation when it exists. -/
theorem generation_dedup :
    (∀ (ready : Bool) (docs : List StudentDoc) (gens : List String)
       (unit assignment session : String) (staffId : Option String)
       (alts : List String) (j : JobPayload),
       j ∈ enqueueGenerationJobs ready docs gens unit assignment session staffId alts →
       hasGeneratedQuestions gens j.student_id (normStr unit)
         (normalizeAssignment assignment) (normalizeAssignment session) = false) ∧
    (∀ (ready : Bool) (docs : List StudentDoc) (gens : List String)
       (unit assignment session : String) (staffId : Option String)
       (alts : List String),
       (∀ d ∈ docs, ∀ sid, d.student_id = some sid → sid ≠ "" →
          hasGeneratedQuestions gens sid (normStr unit)
            (normalizeAssignment assignment) (normalizeAssignment session) = true) →
       enqueueGenerationJobs ready docs gens unit assignment session staffId alts = []) ∧
    (∀ (gen : Except PyErr GenOutput) (mongo pg : Except PyErr Unit),
       questionGenerationQueue true true true gen mongo pg =
         { raised := none, generateCalled := false, postgresAttempted := false }) := by
  refine ⟨?_, ?_, ?_⟩
  · intro ready docs gens unit assignment session staffId alts j hj
    unfold enqueueGenerationJobs at hj
    by_cases hr : ready
    · rw [hr] at hj
      simp only [Bool.not_true, Bool.false_eq_true, if_false] at hj
      unfold enqueueJobs at hj
      rcases List.mem_filterMap.mp hj with ⟨d, _, hd⟩
      cases hsid : d.student_id with
      | none =>
        simp only [hsid] at hd
        exact absurd hd (by simp)
      | some sid =>
        simp only [hsid] at hd
        by_cases he : sid = ""
        · rw [if_pos he] at hd; exact absurd hd (by simp)
        · rw [if_neg he] at hd
          by_cases hg : hasGeneratedQuestions gens sid (normStr unit)
              (normalizeAssignment assignment) (normalizeAssignment session) = true
          · rw [if_pos hg] at hd; exact absurd hd (by simp)
          · rw [if_neg hg] at hd
            have : j.student_id = sid := by
              rw [← Option.some_inj.mp hd]
            rw [this]
            exact Bool.not_eq_true _ ▸ hg
    · rw [Bool.not_eq_true] at hr
      rw [hr] at hj
      exact absurd hj (by simp)
  · intro ready docs gens unit assignment session staffId alts hall
    unfold enqueueGenerationJobs
    by_cases hr : ready
    · rw [hr]
      simp only [Bool.not_true, Bool.false_eq_true, if_false]
      unfold enqueueJobs
      rw [List.filterMap_eq_nil_iff]
      intro d hd
      cases hsid : d.student_id with
      | none => rfl
      | some sid =>
        by_cases he : sid = ""
        · simp [he]
        · simp [he, hall d hd sid hsid he]
    · simp [hr]
  · intro gen mongo pg
    rfl

/-- C7 witness. -/
theorem generation_dedup_witness :
    enqueueGenerationJobs true [⟨some "stu1"⟩, ⟨some "stu2"⟩]
        ["stu1_u1_a-1_y1", "stu2_u1_a-1_y1"] "U1" "a 1" "y1" none [] = [] := by
  refine generation_dedup.2.1 true [⟨some "stu1"⟩, ⟨some "stu2"⟩]
    ["stu1_u1_a-1_y1", "stu2_u1_a-1_y1"] "U1" "a 1" "y1" none [] ?_
  intro d hd sid hsid he
  fin_cases hd <;> simp only [] at hsid <;> rw [← Option.some_inj.mp hsid] <;> decide

/-! ### C6: readiness gate and fuzzy assignment matching -/

/-- one spelling of a token list: the tokens in order, with an arbitrary
(possibly empty) separator run between consecutive tokens. -/
def renderTokens : List (List Char) → List (List Char) → List Char
  | [], _ => []
  | [t], _ => t
  | t :: ts, [] => t ++ renderTokens ts []
  | t :: ts, sep :: seps => t ++ (sep ++ renderTokens ts seps)

theorem stripTokenCI_self_append (t r : List Char) :
    stripTokenCI t (t ++ r) = some r := by
  induction t with
  | nil => rfl
  | cons c t ih => simp [stripTokenCI, ih]

theorem dropWhile_append_of_all {p : Char → Bool} {sep : List Char}
    (h : ∀ c ∈ sep, p c = true) (rest : List Char) :
    (sep ++ rest).dropWhile p = rest.dropWhile p := by
  induction sep with
  | nil => rfl
  | cons c sep ih =>
    simp only [List.cons_append, List.dropWhile_cons, h c (List.mem_cons_self c sep),
      if_true]
    exact ih (fun x hx => h x (List.mem_cons_of_mem c hx))

theorem dropWhile_eq_self_of_head {p : Char → Bool} {c : Char} {rest : List Char}
    (h : p c = false) : (c :: rest).dropWhile p = c :: rest := by
  simp [List.dropWhile_cons, h]

theorem renderTokens_cons_ne_nil {t : List Char} {ts seps : List (List Char)}
    (ht : t ≠ []) : ∃ c r, renderTokens (t :: ts) seps = c :: r ∧ c ∈ t := by
  cases t with
  | nil => exact absurd rfl ht
  | cons c t' =>
    cases ts with
    | nil =>
      cases seps <;>
        exact ⟨c, t', rfl, List.mem_cons_self _ _⟩
    | cons u ts' =>
      cases seps with
      | nil => exact ⟨c, _, rfl, List.mem_cons_self _ _⟩
      | cons sep seps' => exact ⟨c, _, rfl, List.mem_cons_self _ _⟩

/-- the matcher accepts every spelling of its own token list, whatever the
separators between the tokens are. -/
theorem matchSepTokens_renderTokens (ts : List (List Char)) (seps : List (List Char))
    (hne : ts ≠ [])
    (htok : ∀ t ∈ ts, t ≠ [] ∧ ∀ c ∈ t, isSepChar c = false)
    (hsep : ∀ sep ∈ seps, ∀ c ∈ sep, isSepChar c = true) :
    matchSepTokens ts (renderTokens ts seps) = true := by
  induction ts generalizing seps with
  | nil => exact absurd rfl hne
  | cons t ts ih =>
    cases ts with
    | nil =>
      have : renderTokens [t] seps = t := by cases seps <;> rfl
      rw [this]
      have := stripTokenCI_self_append t []
      rw [List.append_nil] at this
      simp [matchSepTokens, this]
    | cons t' ts' =>
      have ht' : t' ≠ [] ∧ ∀ c ∈ t', isSepChar c = false :=
        htok t' (List.mem_cons_of_mem _ (List.mem_cons_self _ _))
      obtain ⟨c, r, hrender, hcmem⟩ :=
        @renderTokens_cons_ne_nil t' ts' seps.tail ht'.1
      have hdrop : ∀ sep : List Char, (∀ x ∈ sep, isSepChar x = true) →
          (sep ++ renderTokens (t' :: ts') seps.tail).dropWhile isSepChar =
            renderTokens (t' :: ts') seps.tail := by
        intro sep hs
        rw [dropWhile_append_of_all hs, hrender,
          dropWhile_eq_self_of_head (ht'.2 c hcmem)]
      have hstep : matchSepTokens (t :: t' :: ts')
          (t ++ (seps.headD [] ++ renderTokens (t' :: ts') seps.tail)) = true := by
        simp only [matchSepTokens, stripTokenCI_self_append]
        rw [hdrop (seps.headD []) ?_]
        · exact ih seps.tail (by simp)
            (fun v hv => htok v (List.mem_cons_of_mem _ hv))
            (fun sep hs => hsep sep (List.mem_of_mem_tail hs))
        · intro x hx
          cases seps with
          | nil => simp at hx
          | cons s0 s1 => exact hsep s0 (List.mem_cons_self _ _) x hx
      have hr : renderTokens (t :: t' :: ts') seps =
          t ++ (seps.headD [] ++ renderTokens (t' :: ts') seps.tail) := by
        cases seps with
        | nil => simp [renderTokens]
        | cons s0 s1 => rfl
      rw [hr]
      exact hstep

/-- C6: the readiness check is true exactly when all three staff documents
(brief, rubric, seed questions) are found; a lookup finds a document
exactly when either the exact normalized key matches or — when the
normalized assignment has tokens — the fuzzy separator-insensitive query
matches; the fuzzy matcher accepts every spelling of the same token list
with `-`, `_` and whitespace runs as interchangeable separators; and
concretely the query assignment `"Assessment 1"` resolves the stored key
`"assessment-1"`. -/
theorem readiness_fuzzy_match :
    (∀ (briefs rubrics seeds : List StaffDoc) (u a s : String),
       staffDocsReady briefs rubrics seeds u a s = true ↔
         ((getStaffDocument briefs u s a).isSome ∧
          (getStaffDocument rubrics u s a).isSome ∧
          (getStaffDocument seeds u s a).isSome)) ∧
    (∀ (docs : List StaffDoc) (u s a : String), normStr a ≠ "" →
       ((getStaffDocument docs u s a).isSome ↔
         (∃ d ∈ docs, (d.unit_code == normStr u && d.session_year == normStr s &&
            d.assignment == normStr a) = true) ∨
         (splitSepTokens (normStr a).data ≠ [] ∧
          ∃ d ∈ docs, (ciExact u d.unit_code && ciExact s d.session_year &&
            matchSepTokens (splitSepTokens (normStr a).data) d.assignment.data) = true))) ∧
    (∀ (ts seps : List (List Char)), ts ≠ [] →
       (∀ t ∈ ts, t ≠ [] ∧ ∀ c ∈ t, isSepChar c = false) →
       (∀ sep ∈ seps, ∀ c ∈ sep, isSepChar c = true) →
       matchSepTokens ts (renderTokens ts seps) = true) ∧
    getStaffDocument [⟨"comp1010", "assessment-1", "s2-2025"⟩]
        "comp1010" "s2-2025" "Assessment 1" =
      some ⟨"comp1010", "assessment-1", "s2-2025"⟩ := by
  refine ⟨?_, ?_, ?_, ?_⟩
  · intro briefs rubrics seeds u a s
    unfold staffDocsReady
    simp [Bool.and_assoc]
  · intro docs u s a hna
    unfold getStaffDocument
    have hne' : (normStr a != "") = true := by simpa using hna
    have hbne : (normStr a == "") = false := by simpa using hna
    cases hfe : docs.find? (fun d =>
        d.unit_code == normStr u && d.session_year == normStr s &&
          (normStr a == "" || d.assignment == normStr a)) with
    | some d =>
      simp only [hfe, Option.isSome_some, true_iff]
      left
      refine ⟨d, List.mem_of_find?_eq_some hfe, ?_⟩
      have hpd := List.find?_some hfe
      simp only [Bool.and_eq_true, Bool.or_eq_true, hbne] at hpd
      simp only [Bool.and_eq_true]
      rcases hpd with ⟨h12, h3 | h3⟩
      · exact absurd h3 (by simp)
      · exact ⟨h12, h3⟩
    | none =>
      have hnotex : ∀ d ∈ docs,
          ¬(d.unit_code == normStr u && d.session_year == normStr s &&
            d.assignment == normStr a) = true := by
        intro d hd hcontra
        have hnone := List.find?_eq_none.mp hfe d hd
        apply hnone
        simp only [Bool.and_eq_true, Bool.or_eq_true] at hcontra ⊢
        exact ⟨hcontra.1, Or.inr hcontra.2⟩
      simp only [hfe, hne', if_true]
      by_cases htok : (splitSepTokens (normStr a).data).isEmpty
      · rw [if_pos htok]
        simp only [Option.isSome_none, Bool.false_eq_true, false_iff]
        rintro (⟨d, hd, hmatch⟩ | ⟨hts, _⟩)
        · exact absurd hmatch (hnotex d hd)
        · exact hts (List.isEmpty_iff.mp htok)
      · rw [if_neg htok]
        rw [show ((docs.find? (fun d =>
            ciExact u d.unit_code && ciExact s d.session_year &&
              matchSepTokens (splitSepTokens (normStr a).data) d.assignment.data)).isSome
              = true) ↔ _ from List.find?_isSome]
        constructor
        · rintro ⟨d, hd, hm⟩
          exact Or.inr ⟨fun h => htok (by simp [h]), d, hd, hm⟩
        · rintro (⟨d, hd, hmatch⟩ | ⟨_, d, hd, hm⟩)
          · exact absurd hmatch (hnotex d hd)
          · exact ⟨d, hd, hm⟩
  · exact matchSepTokens_renderTokens
  · decide

/-- C6 witness. -/
theorem readiness_fuzzy_match_witness :
    matchSepTokens [['a', 'b'], ['1']]
        (renderTokens [['a', 'b'], ['1']] [['-', '_', ' ']]) = true ∧
    renderTokens [['a', 'b'], ['1']] [['-', '_', ' ']] =
      ['a', 'b', '-', '_', ' ', '1'] := by
  refine ⟨readiness_fuzzy_match.2.2.1 [['a', 'b'], ['1']] [['-', '_', ' ']]
    (by decide) (by decide) (by decide), by decide⟩

/-! ### C3: idempotent per-student row replacement -/

/-- the row actually inserted for a tuple: `questionSetId` is attached and
`studentId` is the tuple's student or `NULL` depending on the retry state. -/
def insertedRow (qsid : String) (inc : Bool) (r : PreRow) : QuestionRowRec :=
  { questionId := r.questionId, questionText := r.questionText,
    referenceText := r.referenceText, questionSetId := qsid,
    studentId := if inc then some r.studentId else none,
    alternateQuestion := r.alternateText }

/-- the session-existence test of the conditional `INSERT INTO "Sessions"`. -/
def sessionExists (db : PgDB) (student qsid : String) : Bool :=
  db.sessions.any (fun x => x.studentId == student && x.questionSetId == qsid)

/-- full evaluation of `replaceQuestionsForStudent` when the student id it
needs is provisioned (or not needed). -/
theorem replace_eval (db : PgDB) (qsid student : String) (inc : Bool)
    (rows : List PreRow) (sid : String)
    (hfk : inc = true → db.studentTable.contains student = true) :
    replaceQuestionsForStudent db qsid student inc rows sid =
      .ok { db with
            questionRows :=
              db.questionRows.filter (fun q =>
                !(rowMatchesDelete qsid (if inc then some student else none) q)) ++
              rows.map (insertedRow qsid inc),
            sessions :=
              if inc && !(sessionExists db student qsid) then
                db.sessions ++
                  [{ sessionId := sid, studentId := student, questionSetId := qsid,
                     status := "READY_TO_START", remainingAttempt := 1 }]
              else db.sessions } := by
  unfold replaceQuestionsForStudent sessionExists insertedRow
  cases inc with
  | false => simp
  | true =>
    have hst := hfk rfl
    simp only [hst, Bool.not_true, Bool.and_false, Bool.false_eq_true, if_false,
      Bool.true_and, if_true, Bool.and_true]
    by_cases hany : db.sessions.any
        (fun x => x.studentId == student && x.questionSetId == qsid)
    · simp [hany]
    · simp only [Bool.not_eq_true] at hany
      simp [hany, hst]

theorem rowMatchesDelete_insertedRow {qsid student : String} {inc : Bool}
    {r : PreRow} (hr : r.studentId = student) :
    rowMatchesDelete qsid (if inc then some student else none)
      (insertedRow qsid inc r) = true := by
  cases inc <;> simp [rowMatchesDelete, insertedRow, hr]

theorem filter_not_filter_not (p : QuestionRowRec → Bool) (l : List QuestionRowRec) :
    (l.filter (fun q => !p q)).filter (fun q => !p q) = l.filter (fun q => !p q) := by
  rw [List.filter_filter]
  apply List.filter_congr
  intro q _
  simp

theorem replay_filter (qsid : String) (key : Option String)
    (l new : List QuestionRowRec)
    (hnew : ∀ q ∈ new, rowMatchesDelete qsid key q = true) :
    (l.filter (fun q => !(rowMatchesDelete qsid key q)) ++ new).filter
        (fun q => !(rowMatchesDelete qsid key q)) =
      l.filter (fun q => !(rowMatchesDelete qsid key q)) := by
  rw [List.filter_append, filter_not_filter_not]
  have h2 : new.filter (fun q => !(rowMatchesDelete qsid key q)) = [] :=
    List.filter_eq_nil_iff.mpr (fun q hq => by simp [hnew q hq])
  rw [h2, List.append_nil]

/-- replaying the identical write returns the identical database state. -/
theorem replace_replay (db db1 : PgDB) (qsid student : String) (inc : Bool)
    (rows : List PreRow) (sid1 sid2 : String)
    (hrows : ∀ r ∈ rows, r.studentId = student)
    (hfk : inc = true → db.studentTable.contains student = true)
    (h1 : replaceQuestionsForStudent db qsid student inc rows sid1 = .ok db1) :
    replaceQuestionsForStudent db1 qsid student inc rows sid2 = .ok db1 := by
  rw [replace_eval db qsid student inc rows sid1 hfk, Except.ok.injEq] at h1
  have hfk1 : inc = true → db1.studentTable.contains student = true := by
    intro hinc
    rw [← h1]
    exact hfk hinc
  rw [replace_eval db1 qsid student inc rows sid2 hfk1]
  refine congrArg Except.ok ?_
  have hnew : ∀ q ∈ rows.map (insertedRow qsid inc),
      rowMatchesDelete qsid (if inc then some student else none) q = true := by
    intro q hq
    rcases List.mem_map.mp hq with ⟨r, hr, rfl⟩
    exact rowMatchesDelete_insertedRow (hrows r hr)
  rw [← h1]
  dsimp only
  rw [replay_filter qsid (if inc then some student else none) db.questionRows
    (rows.map (insertedRow qsid inc)) hnew]
  cases inc with
  | false => simp
  | true =>
    by_cases hex : sessionExists db student qsid
    · have hex' : db.sessions.any
          (fun x => x.studentId == student && x.questionSetId == qsid) = true := hex
      simp [sessionExists, hex']
    · simp only [Bool.not_eq_true] at hex
      have hex' : db.sessions.any
          (fun x => x.studentId == student && x.questionSetId == qsid) = false := hex
      have hprop : ∀ x ∈ db.sessions, x.studentId = student →
          ¬x.questionSetId = qsid := by
        intro x hx h1x h2x
        have hall := List.any_eq_false.mp hex' x hx
        simp [h1x, h2x] at hall
      simp [sessionExists, hex', List.any_append, hprop]

/-- C3: the per-student write deletes every existing row for
`(question_set_id, student_id)` — matching `studentId IS NULL` when the
student id is not included — and inserts the new rows in the same
transaction, so afterwards the rows for the key are exactly the inserted
ones while rows for every other key, the sets table and the id tables are
untouched, and the ExamSession link is created only when absent; replaying
the identical write returns the identical database state (no duplicates,
no stale leftovers, no second session). -/
theorem idempotent_row_replacement :
    (∀ (db : PgDB) (qsid student : String) (inc : Bool) (rows : List PreRow)
       (sid : String),
       (∀ r ∈ rows, r.studentId = student) →
       (inc = true → db.studentTable.contains student = true) →
       ∃ db', replaceQuestionsForStudent db qsid student inc rows sid = .ok db' ∧
         db'.questionRows.filter
             (rowMatchesDelete qsid (if inc then some student else none)) =
           rows.map (insertedRow qsid inc) ∧
         db'.questionRows.filter (fun q =>
             !(rowMatchesDelete qsid (if inc then some student else none) q)) =
           db.questionRows.filter (fun q =>
             !(rowMatchesDelete qsid (if inc then some student else none) q)) ∧
         db'.questionSets = db.questionSets ∧
         db'.staffTable = db.staffTable ∧ db'.studentTable = db.studentTable ∧
         (inc = false → db'.sessions = db.sessions) ∧
         (inc = true → sessionExists db student qsid = true →
            db'.sessions = db.sessions) ∧
         (inc = true → sessionExists db student qsid = false →
            db'.sessions = db.sessions ++
              [{ sessionId := sid, studentId := student, questionSetId := qsid,
                 status := "READY_TO_START", remainingAttempt := 1 }])) ∧
    (∀ (db db1 : PgDB) (qsid student : String) (inc : Bool) (rows : List PreRow)
       (sid1 sid2 : String),
       (∀ r ∈ rows, r.studentId = student) →
       (inc = true → db.studentTable.contains student = true) →
       replaceQuestionsForStudent db qsid student inc rows sid1 = .ok db1 →
       replaceQuestionsForStudent db1 qsid student inc rows sid2 = .ok db1) := by
  constructor
  · intro db qsid student inc rows sid hrows hfk
    have hnew : ∀ q ∈ rows.map (insertedRow qsid inc),
        rowMatchesDelete qsid (if inc then some student else none) q = true := by
      intro q hq
      rcases List.mem_map.mp hq with ⟨r, hr, rfl⟩
      exact rowMatchesDelete_insertedRow (hrows r hr)
    refine ⟨_, replace_eval db qsid student inc rows sid hfk, ?_, ?_, rfl, rfl, rfl,
      ?_, ?_, ?_⟩
    · rw [List.filter_append, List.filter_filter]
      rw [List.filter_eq_nil_iff.mpr (fun q _ => by simp [Bool.and_not_self]),
        List.nil_append]
      exact List.filter_eq_self.mpr hnew
    · exact replay_filter qsid (if inc then some student else none) db.questionRows
        (rows.map (insertedRow qsid inc)) hnew
    · intro hinc
      simp [hinc]
    · intro hinc hex
      simp [hinc, hex]
    · intro hinc hex
      simp [hinc, hex]
  · intro db db1 qsid student inc rows sid1 sid2 hrows hfk h1
    exact replace_replay db db1 qsid student inc rows sid1 sid2 hrows hfk h1

/-- C3 witness. -/
theorem idempotent_row_replacement_witness :
    ∃ db', replaceQuestionsForStudent
        { questionSets :=
            [{ questionSetId := "set0", name := "u_a_y", unitCode := "u",
               assessmentName := "a", staffId := none, createdAt := 0 }],
          questionRows :=
            [{ questionId := "old", questionText := "stale", referenceText := none,
               questionSetId := "set0", studentId := some "stu1",
               alternateQuestion := none }],
          sessions := [], staffTable := [], studentTable := ["stu1"], clock := 1 }
        "set0" "stu1" true
        [{ questionId := "n1", questionText := "Q1", referenceText := none,
           studentId := "stu1", alternateText := none }] "sess0" = .ok db' ∧
      db'.questionRows.filter (rowMatchesDelete "set0" (some "stu1")) =
        [{ questionId := "n1", questionText := "Q1", referenceText := none,
           questionSetId := "set0", studentId := some "stu1",
           alternateQuestion := none }] := by
  obtain ⟨db', h1, h2, -⟩ := idempotent_row_replacement.1
    { questionSets :=
        [{ questionSetId := "set0", name := "u_a_y", unitCode := "u",
           assessmentName := "a", staffId := none, createdAt := 0 }],
      questionRows :=
        [{ questionId := "old", questionText := "stale", referenceText := none,
           questionSetId := "set0", studentId := some "stu1",
           alternateQuestion := none }],
      sessions := [], staffTable := [], studentTable := ["stu1"], clock := 1 }
    "set0" "stu1" true
    [{ questionId := "n1", questionText := "Q1", referenceText := none,
       studentId := "stu1", alternateText := none }] "sess0"
    (by intro r hr; simp at hr; rw [hr]) (by intro _; decide)
  refine ⟨db', h1, ?_⟩
  rw [show ((if true then some "stu1" else none) : Option String) = some "stu1"
    from rfl] at h2
  rw [h2]
  decide

/-! ### C2: one QuestionSet per key, serialized by the advisory lock -/

/-- the sets currently stored for one logical key. -/
def keySets (db : PgDB) (u a s : String) : List QuestionSetRow :=
  db.questionSets.filter (setMatchesKey u a (questionSetName u a s))

/-- the staff id passed in, when truthy, references a provisioned staff row
(so the backfill / insert cannot hit the staff foreign key). -/
def staffOk (T : List String) : Option String → Prop
  | none => True
  | some st => st ≠ "" → T.contains st = true

/-- a serialized sequence of `get_or_create` calls (the advisory lock makes
every concurrent schedule equivalent to one such sequence). -/
def runGetOrCreateCalls (u a s : String) :
    PgDB → List (Option String × String) → Except PgError (List String × PgDB)
  | db, [] => .ok ([], db)
  | db, (staff, fresh) :: calls =>
    match getOrCreateQuestionSet db u a s staff fresh with
    | .error e => .error e
    | .ok (id, db') =>
      match runGetOrCreateCalls u a s db' calls with
      | .error e => .error e
      | .ok (ids, db'') => .ok (id :: ids, db'')

theorem newestSet_mem : ∀ {l : List QuestionSetRow} {r : QuestionSetRow},
    newestSet l = some r → r ∈ l := by
  intro l
  induction l with
  | nil => intro r h; simp [newestSet] at h
  | cons a l ih =>
    intro r h
    simp only [newestSet] at h
    cases hn : newestSet l with
    | none =>
      simp only [hn] at h
      exact (Option.some_inj.mp h) ▸ List.mem_cons_self a l
    | some b =>
      simp only [hn] at h
      by_cases hc : b.createdAt > a.createdAt
      · rw [if_pos hc] at h
        exact List.mem_cons_of_mem a ((Option.some_inj.mp h) ▸ ih hn)
      · rw [if_neg hc] at h
        exact (Option.some_inj.mp h) ▸ List.mem_cons_self a l

theorem newestSet_map {f : QuestionSetRow → QuestionSetRow}
    (hf : ∀ r, (f r).createdAt = r.createdAt) :
    ∀ l : List QuestionSetRow, newestSet (l.map f) = (newestSet l).map f := by
  intro l
  induction l with
  | nil => rfl
  | cons a l ih =>
    simp only [List.map_cons, newestSet, ih]
    cases newestSet l with
    | none => rfl
    | some b => by_cases hc : b.createdAt > a.createdAt <;> simp [hf, hc]

theorem keySets_map (db : PgDB) (u a s : String)
    (f : QuestionSetRow → QuestionSetRow)
    (hkey : ∀ r, setMatchesKey u a (questionSetName u a s) (f r) =
      setMatchesKey u a (questionSetName u a s) r) :
    keySets { db with questionSets := db.questionSets.map f } u a s =
      (keySets db u a s).map f := by
  unfold keySets
  dsimp only
  rw [List.filter_map]
  congr 1
  apply List.filter_congr
  intro r _
  exact hkey r

theorem keySets_append_match (db : PgDB) (u a s : String) (row : QuestionSetRow)
    (cl : Nat) (hmatch : setMatchesKey u a (questionSetName u a s) row = true) :
    keySets { db with questionSets := db.questionSets ++ [row], clock := cl }
        u a s = keySets db u a s ++ [row] := by
  unfold keySets
  dsimp only
  rw [List.filter_append]
  simp [hmatch]

/-- evaluation of the found-the-set case of `_get_or_create_question_set`:
the newest existing id is returned, nothing is inserted, and the stored
`staffId` is backfilled exactly when a truthy staff id arrives while the
stored one is not set — an already-set staff id is never overwritten. -/
theorem getOrCreate_found_step (db : PgDB) (u a s : String) (staff : Option String)
    (fresh : String) (row : QuestionSetRow)
    (hfound : newestSet (keySets db u a s) = some row)
    (hok : staffOk db.staffTable staff) :
    ∃ db' row',
      getOrCreateQuestionSet db u a s staff fresh = .ok (row.questionSetId, db') ∧
      newestSet (keySets db' u a s) = some row' ∧
      row'.questionSetId = row.questionSetId ∧
      (keySets db' u a s).length = (keySets db u a s).length ∧
      db'.staffTable = db.staffTable ∧
      ((truthy staff = false ∨ truthy row.staffId = true) → db' = db) ∧
      (∀ st, staff = some st → st ≠ "" → truthy row.staffId = false →
        row'.staffId = some st) := by
  unfold getOrCreateQuestionSet
  dsimp only
  rw [show List.filter (setMatchesKey u a (questionSetName u a s)) db.questionSets
      = keySets db u a s from rfl]
  simp only [hfound]
  cases staff with
  | none =>
    exact ⟨db, row, rfl, hfound, rfl, rfl, rfl, fun _ => rfl,
      fun st hst => by simp at hst⟩
  | some st =>
    dsimp only
    by_cases hcond : (st != "" && !truthy row.staffId) = true
    · have hcond' : st ≠ "" ∧ truthy row.staffId = false := by
        simpa using hcond
      have hst : st ≠ "" := hcond'.1
      have hrowst : truthy row.staffId = false := hcond'.2
      have hcontains : db.staffTable.contains st = true := hok hst
      rw [if_pos hcond, if_pos hcontains]
      have hkeyf : ∀ r : QuestionSetRow,
          setMatchesKey u a (questionSetName u a s)
            (if r.questionSetId == row.questionSetId then { r with staffId := some st }
             else r) = setMatchesKey u a (questionSetName u a s) r := by
        intro r
        by_cases h : r.questionSetId == row.questionSetId <;> simp [setMatchesKey, h]
      have hcf : ∀ r : QuestionSetRow,
          ((if r.questionSetId == row.questionSetId then { r with staffId := some st }
            else r) : QuestionSetRow).createdAt = r.createdAt := by
        intro r
        by_cases h : r.questionSetId == row.questionSetId <;> simp [h]
      refine ⟨_, if row.questionSetId == row.questionSetId then
          { row with staffId := some st } else row, rfl, ?_, ?_, ?_, rfl,
        ?_, ?_⟩
      · rw [keySets_map db u a s _ hkeyf, newestSet_map hcf, hfound]
        rfl
      · by_cases h : row.questionSetId == row.questionSetId <;> simp [h]
      · rw [keySets_map db u a s _ hkeyf, List.length_map]
      · rintro (h | h)
        · simp only [truthy] at h
          exact absurd (by simpa using h) hst
        · rw [h] at hrowst
          cases hrowst
      · intro st' hst' _ _
        rw [Option.some_inj.mp hst']
        simp
    · rw [if_neg hcond]
      refine ⟨db, row, rfl, hfound, rfl, rfl, rfl, fun _ => rfl, ?_⟩
      intro st' hst' hne hrowst
      exfalso
      apply hcond
      rw [hrowst]
      have hstst : st = st' := Option.some_inj.mp hst'
      simp [hstst, hne]

/-- evaluation of the no-set-yet case: a single new set is inserted for the
key, carrying the staff id exactly when it is truthy. -/
theorem getOrCreate_create (db : PgDB) (u a s : String) (staff : Option String)
    (fresh : String)
    (hempty : keySets db u a s = [])
    (hok : staffOk db.staffTable staff) :
    getOrCreateQuestionSet db u a s staff fresh =
      .ok (fresh,
        { db with
          questionSets := db.questionSets ++
            [{ questionSetId := fresh, name := questionSetName u a s,
               unitCode := u, assessmentName := a,
               staffId := if truthy staff then staff else none,
               createdAt := db.clock }],
          clock := db.clock + 1 }) := by
  unfold getOrCreateQuestionSet
  dsimp only
  rw [show List.filter (setMatchesKey u a (questionSetName u a s)) db.questionSets
      = keySets db u a s from rfl]
  simp only [hempty, newestSet]
  cases staff with
  | none => rfl
  | some st =>
    by_cases hst : st = ""
    · rw [hst]
      rfl
    · have h1 : ((st : String) != "") = true := by simpa using hst
      simp only [h1, if_true, hok hst, truthy]

theorem setMatchesKey_new (u a s fresh : String) (sid : Option String) (cl : Nat) :
    setMatchesKey u a (questionSetName u a s)
      { questionSetId := fresh, name := questionSetName u a s, unitCode := u,
        assessmentName := a, staffId := sid, createdAt := cl } = true := by
  simp [setMatchesKey]

/-- once one set exists and is the newest for the key, every further
serialized call returns that same id and the number of sets for the key
never changes. -/
theorem runGetOrCreateCalls_stable (u a s : String)
    (calls : List (Option String × String)) :
    ∀ (db : PgDB) (row : QuestionSetRow),
    newestSet (keySets db u a s) = some row →
    (∀ c ∈ calls, staffOk db.staffTable c.1) →
    ∃ ids db', runGetOrCreateCalls u a s db calls = .ok (ids, db') ∧
      (∀ i ∈ ids, i = row.questionSetId) ∧
      (keySets db' u a s).length = (keySets db u a s).length ∧
      db'.staffTable = db.staffTable := by
  induction calls with
  | nil =>
    intro db row hfound _
    exact ⟨[], db, rfl, by simp, rfl, rfl⟩
  | cons c calls ih =>
    intro db row hfound hok
    obtain ⟨cs, cf⟩ := c
    obtain ⟨db1, row1, hcall, hfound1, hid1, hlen1, hstaff1, -, -⟩ :=
      getOrCreate_found_step db u a s cs cf row hfound
        (hok (cs, cf) (List.mem_cons_self _ calls))
    obtain ⟨ids, db2, hrun, hids, hlen2, hstaff2⟩ := ih db1 row1 hfound1
      (fun d hd => hstaff1 ▸ hok d (List.mem_cons_of_mem _ hd))
    refine ⟨row.questionSetId :: ids, db2, ?_, ?_, ?_, ?_⟩
    · unfold runGetOrCreateCalls
      simp only [hcall, hrun]
    · intro i hi
      rcases List.mem_cons.mp hi with h | h
      · exact h
      · exact (hids i h).trans hid1
    · rw [hlen2, hlen1]
    · rw [hstaff2, hstaff1]

/-- C2: serialized by the per-key advisory lock (modeled by each call being
one atomic step), `_get_or_create_question_set` keeps at most one
QuestionSet per key: when a set exists, its id is returned with nothing
inserted, the stored `staffId` is backfilled only when a truthy staff id
arrives while the stored one is unset, and an already-set staff id is
never overwritten (the state is returned unchanged); when no set exists
one is inserted; and starting from a key with no set, the first call
creates it and every further serialized call — whatever staff id it
carries — returns the same id while exactly one set for the key exists. -/
theorem question_set_uniqueness :
    (∀ (db : PgDB) (u a s : String) (staff : Option String) (fresh : String)
       (row : QuestionSetRow),
       newestSet (keySets db u a s) = some row →
       staffOk db.staffTable staff →
       ∃ db' row',
         getOrCreateQuestionSet db u a s staff fresh = .ok (row.questionSetId, db') ∧
         newestSet (keySets db' u a s) = some row' ∧
         row'.questionSetId = row.questionSetId ∧
         (keySets db' u a s).length = (keySets db u a s).length ∧
         ((truthy staff = false ∨ truthy row.staffId = true) → db' = db) ∧
         (∀ st, staff = some st → st ≠ "" → truthy row.staffId = false →
            row'.staffId = some st)) ∧
    (∀ (db : PgDB) (u a s : String) (staff : Option String) (fresh : String),
       keySets db u a s = [] →
       staffOk db.staffTable staff →
       getOrCreateQuestionSet db u a s staff fresh =
         .ok (fresh,
           { db with
             questionSets := db.questionSets ++
               [{ questionSetId := fresh, name := questionSetName u a s,
                  unitCode := u, assessmentName := a,
                  staffId := if truthy staff then staff else none,
                  createdAt := db.clock }],
             clock := db.clock + 1 })) ∧
    (∀ (db : PgDB) (u a s : String) (staff0 : Option String) (fresh0 : String)
       (calls : List (Option String × String)),
       keySets db u a s = [] →
       staffOk db.staffTable staff0 →
       (∀ c ∈ calls, staffOk db.staffTable c.1) →
       ∃ db1 ids db2,
         getOrCreateQuestionSet db u a s staff0 fresh0 = .ok (fresh0, db1) ∧
         runGetOrCreateCalls u a s db1 calls = .ok (ids, db2) ∧
         (∀ i ∈ ids, i = fresh0) ∧
         (keySets db2 u a s).length = 1) := by
  refine ⟨?_, ?_, ?_⟩
  · intro db u a s staff fresh row hfound hok
    obtain ⟨db', row', h1, h2, h3, h4, h5, h6, h7⟩ :=
      getOrCreate_found_step db u a s staff fresh row hfound hok
    exact ⟨db', row', h1, h2, h3, h4, h6, h7⟩
  · intro db u a s staff fresh hempty hok
    exact getOrCreate_create db u a s staff fresh hempty hok
  · intro db u a s staff0 fresh0 calls hempty hok0 hokall
    have hcreate := getOrCreate_create db u a s staff0 fresh0 hempty hok0
    set newRow : QuestionSetRow :=
      { questionSetId := fresh0, name := questionSetName u a s,
        unitCode := u, assessmentName := a,
        staffId := if truthy staff0 then staff0 else none,
        createdAt := db.clock } with hnewRow
    have hkey1 : keySets
        { db with
          questionSets := db.questionSets ++ [newRow],
          clock := db.clock + 1 } u a s = [newRow] := by
      rw [keySets_append_match db u a s newRow (db.clock + 1)
        (setMatchesKey_new u a s fresh0 _ db.clock), hempty, List.nil_append]
    have hfound1 : newestSet (keySets
        { db with
          questionSets := db.questionSets ++ [newRow],
          clock := db.clock + 1 } u a s) = some newRow := by
      rw [hkey1]
      rfl
    obtain ⟨ids, db2, hrun, hids, hlen, -⟩ :=
      runGetOrCreateCalls_stable u a s calls _ newRow hfound1 (fun c hc => hokall c hc)
    refine ⟨_, ids, db2, hcreate, hrun, ?_, ?_⟩
    · intro i hi
      exact hids i hi
    · rw [hlen, hkey1]
      rfl

/-- C2 witness. -/
theorem question_set_uniqueness_witness :
    ∃ db1 ids db2,
      getOrCreateQuestionSet
        { questionSets := [], questionRows := [], sessions := [],
          staffTable := ["staff9"], studentTable := [], clock := 0 }
        "u1" "a-1" "y1" none "idA" = .ok ("idA", db1) ∧
      runGetOrCreateCalls "u1" "a-1" "y1" db1
        [(some "staff9", "idB"), (none, "idC")] = .ok (ids, db2) ∧
      (∀ i ∈ ids, i = "idA") ∧
      (keySets db2 "u1" "a-1" "y1").length = 1 := by
  exact question_set_uniqueness.2.2
    { questionSets := [], questionRows := [], sessions := [],
      staffTable := ["staff9"], studentTable := [], clock := 0 }
    "u1" "a-1" "y1" none "idA" [(some "staff9", "idB"), (none, "idC")]
    (by rfl) trivial
    (by
      intro c hc
      fin_cases hc
      · intro h
        decide
      · trivial)

/-! ### C1: the foreign-key retry ladder -/

theorem filter_fresh_rows (db : PgDB) (qsid : String) (key : Option String)
    (hfresh : ∀ q ∈ db.questionRows, q.questionSetId ≠ qsid) :
    db.questionRows.filter (fun q => !(rowMatchesDelete qsid key q)) =
      db.questionRows := by
  apply List.filter_eq_self.mpr
  intro q hq
  have : (q.questionSetId == qsid) = false := by
    simp [hfresh q hq]
  simp [rowMatchesDelete, this]

theorem sessionExists_fresh (db : PgDB) (student qsid : String)
    (hfresh : ∀ x ∈ db.sessions, x.questionSetId ≠ qsid) :
    sessionExists db student qsid = false := by
  apply List.any_eq_false.mpr
  intro x hx
  have : (x.questionSetId == qsid) = false := by simpa using hfresh x hx
  simp [this]

theorem buildPreRows_ne_nil (studentId : String) (questions : List (Option String))
    (reference : List String) (alternates : List (Option String))
    (rowIds : Nat → String) (h : questions.any Option.isSome = true) :
    (buildPreRows studentId questions reference alternates rowIds).isEmpty = false := by
  rcases List.any_eq_true.mp h with ⟨q, hq, hsome⟩
  cases q with
  | none => simp at hsome
  | some v =>
    rcases List.mem_iff_get.mp hq with ⟨i, hi⟩
    rw [List.isEmpty_eq_false_iff_exists_mem]
    refine ⟨{ questionId := rowIds i, questionText := v,
              referenceText := reference.get? i, studentId := studentId,
              alternateText := ((alternates.get? i).bind id).map pyStrip }, ?_⟩
    unfold buildPreRows
    apply List.mem_filterMap.mpr
    refine ⟨(i.1, some v), ?_, rfl⟩
    apply List.mk_mem_enum_iff_getElem?.mpr
    rw [List.getElem?_eq_getElem (by exact i.2)]
    simp [← hi]

theorem buildPreRows_studentId (studentId : String)
    (questions : List (Option String)) (reference : List String)
    (alternates : List (Option String)) (rowIds : Nat → String) :
    ∀ r ∈ buildPreRows studentId questions reference alternates rowIds,
      r.studentId = studentId := by
  intro r hr
  unfold buildPreRows at hr
  rcases List.mem_filterMap.mp hr with ⟨⟨i, q⟩, _, hq⟩
  cases q with
  | none => simp at hq
  | some v =>
    simp only [Option.some_inj] at hq
    rw [← hq]

/-- first-attempt failure: a truthy staff id that is not provisioned makes
the set insert hit the staffId foreign key. -/
theorem attemptInsert_staff_fk (db : PgDB) (studentId u a s st : String)
    (inc : Bool) (rows : List PreRow) (setId sessId : String)
    (hempty : keySets db u a s = [])
    (hst : st ≠ "") (hmiss : db.staffTable.contains st = false) :
    attemptInsert db studentId u a s (some st) inc rows setId sessId =
      .error (.fkViolation "PersonalisedQuestionSets_staffId_fkey") := by
  unfold attemptInsert getOrCreateQuestionSet
  dsimp only
  rw [show List.filter (setMatchesKey u a (questionSetName u a s)) db.questionSets
      = keySets db u a s from rfl]
  simp only [hempty, newestSet]
  have h1 : ((st : String) != "") = true := by simpa using hst
  simp only [h1, if_true, hmiss, Bool.false_eq_true, if_false]

/-- row-insert failure: an unprovisioned student id makes the bulk insert
hit the studentId foreign key (the set insert of the same transaction is
rolled back). -/
theorem attemptInsert_student_fk (db : PgDB) (studentId u a s : String)
    (staff : Option String) (rows : List PreRow) (setId sessId : String)
    (hempty : keySets db u a s = [])
    (hok : staffOk db.staffTable staff)
    (hrows : rows.isEmpty = false)
    (hmiss : db.studentTable.contains studentId = false) :
    attemptInsert db studentId u a s staff true rows setId sessId =
      .error (.fkViolation "PersonalisedQuestions_studentId_fkey") := by
  unfold attemptInsert
  rw [getOrCreate_create db u a s staff setId hempty hok]
  dsimp only
  unfold replaceQuestionsForStudent
  dsimp only
  simp only [hrows, hmiss, Bool.not_false, Bool.and_true, Bool.true_and, if_true]

/-- successful attempt on a key with no set yet: one set is created
(carrying the staff id exactly when truthy), the delete touches nothing
(the set id is fresh), the rows are inserted with or without the student
id, and the session is created exactly when the student id is kept. -/
theorem attemptInsert_success (db : PgDB) (studentId u a s : String)
    (staff : Option String) (inc : Bool) (rows : List PreRow) (setId sessId : String)
    (hempty : keySets db u a s = [])
    (hok : staffOk db.staffTable staff)
    (hstud : inc = true → db.studentTable.contains studentId = true)
    (hqfresh : ∀ q ∈ db.questionRows, q.questionSetId ≠ setId)
    (hsfresh : ∀ x ∈ db.sessions, x.questionSetId ≠ setId) :
    attemptInsert db studentId u a s staff inc rows setId sessId =
      .ok { db with
            questionSets := db.questionSets ++
              [{ questionSetId := setId, name := questionSetName u a s,
                 unitCode := u, assessmentName := a,
                 staffId := if truthy staff then staff else none,
                 createdAt := db.clock }],
            questionRows := db.questionRows ++ rows.map (insertedRow setId inc),
            sessions :=
              if inc then
                db.sessions ++
                  [{ sessionId := sessId, studentId := studentId,
                     questionSetId := setId, status := "READY_TO_START",
                     remainingAttempt := 1 }]
              else db.sessions,
            clock := db.clock + 1 } := by
  unfold attemptInsert
  rw [getOrCreate_create db u a s staff setId hempty hok]
  dsimp only
  have hfk1 : inc = true →
      (PgDB.studentTable
        { db with
          questionSets := db.questionSets ++
            [{ questionSetId := setId, name := questionSetName u a s,
               unitCode := u, assessmentName := a,
               staffId := if truthy staff then staff else none,
               createdAt := db.clock }],
          clock := db.clock + 1 }).contains studentId = true := hstud
  rw [replace_eval _ setId studentId inc rows sessId hfk1]
  refine congrArg Except.ok ?_
  dsimp only
  rw [filter_fresh_rows _ setId _ hqfresh]
  have hsess : sessionExists
      { db with
        questionSets := db.questionSets ++
          [{ questionSetId := setId, name := questionSetName u a s,
             unitCode := u, assessmentName := a,
             staffId := if truthy staff then staff else none,
             createdAt := db.clock }],
        clock := db.clock + 1 } studentId setId = false :=
    sessionExists_fresh _ studentId setId hsfresh
  cases inc with
  | false => simp
  | true => simp [hsess]

theorem substr_staff_self :
    substrIn "PersonalisedQuestionSets_staffId_fkey"
      "PersonalisedQuestionSets_staffId_fkey" = true := by decide

theorem substr_student_self :
    substrIn "PersonalisedQuestions_studentId_fkey"
      "PersonalisedQuestions_studentId_fkey" = true := by decide

theorem substr_staff_in_student :
    substrIn "PersonalisedQuestionSets_staffId_fkey"
      "PersonalisedQuestions_studentId_fkey" = false := by decide

/-- C1: the write of `_store_questions_postgres` is attempted up to 3 times
in total.  On a key with no set yet: a staff-id foreign-key violation
triggers one retry with the staff id cleared, after which the set is still
created without staff attribution and the rows and session are written; a
student-id foreign-key violation triggers a retry with the student id
cleared from the row insert and the ExamSession step skipped, the set and
rows still being written; when both identities are missing the three
attempts clear them one after the other and the content is still
persisted.  Any error that matches neither arm of the ladder propagates to
the caller at once, and a failure on the third attempt propagates. -/
theorem fk_retry_ladder :
    (∀ (db : PgDB) (studentId u a s st : String)
       (questions : List (Option String)) (reference : List String)
       (alternates : List (Option String)) (rowIds setIds sessionIds : Nat → String),
       questions.any Option.isSome = true →
       keySets db u a s = [] →
       st ≠ "" → db.staffTable.contains st = false →
       db.studentTable.contains studentId = true →
       (∀ q ∈ db.questionRows, ∀ i, q.questionSetId ≠ setIds i) →
       (∀ x ∈ db.sessions, ∀ i, x.questionSetId ≠ setIds i) →
       storeQuestionsPostgres db studentId u a s (some st) questions reference
           alternates rowIds setIds sessionIds =
         .ok (some { db with
           questionSets := db.questionSets ++
             [{ questionSetId := setIds 1, name := questionSetName u a s,
                unitCode := u, assessmentName := a, staffId := none,
                createdAt := db.clock }],
           questionRows := db.questionRows ++
             (buildPreRows studentId questions reference alternates rowIds).map
               (insertedRow (setIds 1) true),
           sessions := db.sessions ++
             [{ sessionId := sessionIds 1, studentId := studentId,
                questionSetId := setIds 1, status := "READY_TO_START",
                remainingAttempt := 1 }],
           clock := db.clock + 1 })) ∧
    (∀ (db : PgDB) (studentId u a s : String) (staff : Option String)
       (questions : List (Option String)) (reference : List String)
       (alternates : List (Option String)) (rowIds setIds sessionIds : Nat → String),
       questions.any Option.isSome = true →
       keySets db u a s = [] →
       staffOk db.staffTable staff →
       db.studentTable.contains studentId = false →
       (∀ q ∈ db.questionRows, ∀ i, q.questionSetId ≠ setIds i) →
       (∀ x ∈ db.sessions, ∀ i, x.questionSetId ≠ setIds i) →
       storeQuestionsPostgres db studentId u a s staff questions reference
           alternates rowIds setIds sessionIds =
         .ok (some { db with
           questionSets := db.questionSets ++
             [{ questionSetId := setIds 1, name := questionSetName u a s,
                unitCode := u, assessmentName := a,
                staffId := if truthy staff then staff else none,
                createdAt := db.clock }],
           questionRows := db.questionRows ++
             (buildPreRows studentId questions reference alternates rowIds).map
               (insertedRow (setIds 1) false),
           sessions := db.sessions,
           clock := db.clock + 1 })) ∧
    (∀ (db : PgDB) (studentId u a s st : String)
       (questions : List (Option String)) (reference : List String)
       (alternates : List (Option String)) (rowIds setIds sessionIds : Nat → String),
       questions.any Option.isSome = true →
       keySets db u a s = [] →
       st ≠ "" → db.staffTable.contains st = false →
       db.studentTable.contains studentId = false →
       (∀ q ∈ db.questionRows, ∀ i, q.questionSetId ≠ setIds i) →
       (∀ x ∈ db.sessions, ∀ i, x.questionSetId ≠ setIds i) →
       storeQuestionsPostgres db studentId u a s (some st) questions reference
           alternates rowIds setIds sessionIds =
         .ok (some { db with
           questionSets := db.questionSets ++
             [{ questionSetId := setIds 2, name := questionSetName u a s,
                unitCode := u, assessmentName := a, staffId := none,
                createdAt := db.clock }],
           questionRows := db.questionRows ++
             (buildPreRows studentId questions reference alternates rowIds).map
               (insertedRow (setIds 2) false),
           sessions := db.sessions,
           clock := db.clock + 1 })) ∧
    (∀ (attempt : Nat → Option String → Bool → Except PgError PgDB)
       (e : PgError) (staff : Option String) (inc : Bool),
       attempt 0 staff inc = .error e →
       (isFkViolation e && substrIn "PersonalisedQuestionSets_staffId_fkey"
          (constraintOf e) && truthy staff) = false →
       (isFkViolation e && substrIn "PersonalisedQuestions_studentId_fkey"
          (constraintOf e) && inc) = false →
       fkRetryLoop attempt 3 0 staff inc = .error e) ∧
    (∀ (attempt : Nat → Option String → Bool → Except PgError PgDB)
       (st : String) (e : PgError),
       st ≠ "" →
       attempt 0 (some st) true =
         .error (.fkViolation "PersonalisedQuestionSets_staffId_fkey") →
       attempt 1 none true =
         .error (.fkViolation "PersonalisedQuestions_studentId_fkey") →
       attempt 2 none false = .error e →
       fkRetryLoop attempt 3 0 (some st) true = .error e) := by
  refine ⟨?_, ?_, ?_, ?_, ?_⟩
  · intro db studentId u a s st questions reference alternates rowIds setIds
      sessionIds hany hempty hst hstaffmiss hstud hqfresh hsfresh
    have hqne : questions.isEmpty = false := by
      cases questions with
      | nil => simp at hany
      | cons q qs => rfl
    have hrne := buildPreRows_ne_nil studentId questions reference alternates
      rowIds hany
    have hstb : (st != "") = true := by simpa using hst
    have ha0 := attemptInsert_staff_fk db studentId u a s st true
      (buildPreRows studentId questions reference alternates rowIds)
      (setIds 0) (sessionIds 0) hempty hst hstaffmiss
    have ha1 := attemptInsert_success db studentId u a s none true
      (buildPreRows studentId questions reference alternates rowIds)
      (setIds 1) (sessionIds 1) hempty trivial (fun _ => hstud)
      (fun q hq => hqfresh q hq 1) (fun x hx => hsfresh x hx 1)
    unfold storeQuestionsPostgres
    simp only [hqne, Bool.false_eq_true, if_false, hrne, fkRetryLoop, ha0, ha1,
      isFkViolation, constraintOf, substr_staff_self, truthy, hstb,
      Bool.and_true, Bool.true_and, Bool.and_self, if_true]
  · intro db studentId u a s staff questions reference alternates rowIds setIds
      sessionIds hany hempty hok hstudmiss hqfresh hsfresh
    have hqne : questions.isEmpty = false := by
      cases questions with
      | nil => simp at hany
      | cons q qs => rfl
    have hrne := buildPreRows_ne_nil studentId questions reference alternates
      rowIds hany
    have ha0 := attemptInsert_student_fk db studentId u a s staff
      (buildPreRows studentId questions reference alternates rowIds)
      (setIds 0) (sessionIds 0) hempty hok hrne hstudmiss
    have ha1 := attemptInsert_success db studentId u a s staff false
      (buildPreRows studentId questions reference alternates rowIds)
      (setIds 1) (sessionIds 1) hempty hok (fun h => by cases h)
      (fun q hq => hqfresh q hq 1) (fun x hx => hsfresh x hx 1)
    unfold storeQuestionsPostgres
    simp only [hqne, Bool.false_eq_true, if_false, hrne, fkRetryLoop, ha0, ha1,
      isFkViolation, constraintOf, substr_staff_in_student, substr_student_self,
      Bool.and_false, Bool.false_and, Bool.and_true, Bool.true_and, Bool.and_self,
      if_true, if_false]
  · intro db studentId u a s st questions reference alternates rowIds setIds
      sessionIds hany hempty hst hstaffmiss hstudmiss hqfresh hsfresh
    have hqne : questions.isEmpty = false := by
      cases questions with
      | nil => simp at hany
      | cons q qs => rfl
    have hrne := buildPreRows_ne_nil studentId questions reference alternates
      rowIds hany
    have hstb : (st != "") = true := by simpa using hst
    have ha0 := attemptInsert_staff_fk db studentId u a s st true
      (buildPreRows studentId questions reference alternates rowIds)
      (setIds 0) (sessionIds 0) hempty hst hstaffmiss
    have ha1 := attemptInsert_student_fk db studentId u a s none
      (buildPreRows studentId questions reference alternates rowIds)
      (setIds 1) (sessionIds 1) hempty trivial hrne hstudmiss
    have ha2 := attemptInsert_success db studentId u a s none false
      (buildPreRows studentId questions reference alternates rowIds)
      (setIds 2) (sessionIds 2) hempty trivial (fun h => by cases h)
      (fun q hq => hqfresh q hq 2) (fun x hx => hsfresh x hx 2)
    unfold storeQuestionsPostgres
    simp only [hqne, Bool.false_eq_true, if_false, hrne, fkRetryLoop, ha0, ha1, ha2,
      isFkViolation, constraintOf, substr_staff_self, substr_staff_in_student,
      substr_student_self, truthy, hstb, Bool.and_true, Bool.true_and,
      Bool.and_false, Bool.false_and, Bool.and_self, if_true, if_false]
  · intro attempt e staff inc h0 hc1 hc2
    simp only [fkRetryLoop, h0, hc1, hc2, Bool.false_eq_true, if_false]
  · intro attempt st e hst h0 h1 h2
    have hstb : (st != "") = true := by simpa using hst
    simp only [fkRetryLoop, h0, h1, h2, isFkViolation, constraintOf,
      substr_staff_self, substr_staff_in_student, substr_student_self, truthy,
      hstb, Bool.and_true, Bool.true_and, Bool.and_false, Bool.false_and,
      Bool.and_self, Bool.false_eq_true, if_true, if_false]

/-- C1 witness. -/
theorem fk_retry_ladder_witness :
    storeQuestionsPostgres
        { questionSets := [], questionRows := [], sessions := [],
          staffTable := [], studentTable := ["stu1"], clock := 0 }
        "stu1" "u1" "a-1" "y1" (some "ghost") [some "Q1"] ["R1"] []
        (fun i => "row" ++ toString i) (fun i => "set" ++ toString i)
        (fun i => "sess" ++ toString i) =
      .ok (some
        { questionSets :=
            [{ questionSetId := "set1", name := "u1_a-1_y1", unitCode := "u1",
               assessmentName := "a-1", staffId := none, createdAt := 0 }],
          questionRows :=
            [{ questionId := "row0", questionText := "Q1", referenceText := some "R1",
               questionSetId := "set1", studentId := some "stu1",
               alternateQuestion := none }],
          sessions :=
            [{ sessionId := "sess1", studentId := "stu1", questionSetId := "set1",
               status := "READY_TO_START", remainingAttempt := 1 }],
          staffTable := [], studentTable := ["stu1"], clock := 1 }) := by
  have h := fk_retry_ladder.1
    { questionSets := [], questionRows := [], sessions := [],
      staffTable := [], studentTable := ["stu1"], clock := 0 }
    "stu1" "u1" "a-1" "y1" "ghost" [some "Q1"] ["R1"] []
    (fun i => "row" ++ toString i) (fun i => "set" ++ toString i)
    (fun i => "sess" ++ toString i)
    (by decide) (by decide) (by decide) (by decide) (by decide)
    (by intro q hq i; simp at hq) (by intro x hx i; simp at hx)
  rw [h]
  rfl

/-! ### C8: characterization of score extraction -/

/-- the decimal tokens accepted by the group `([0-9]|10)`, with their value. -/
def numToken (numStr : List Char) (n : Nat) : Prop :=
  (∃ d, numStr = [d] ∧ d.isDigit = true ∧ n = digitVal d) ∨
  (numStr = ['1', '0'] ∧ n = 10)

/-- `\b` on the left: the text before the match does not end in a word
character. -/
def wordBoundaryLeft (pre : List Char) : Prop :=
  ∀ c, pre.getLast? = some c → isWordChar c = false

/-- `\b` on the right: the text after the match does not begin with a word
character. -/
def wordBoundaryRight (post : List Char) : Prop :=
  ∀ c, post.head? = some c → isWordChar c = false

/-- the `\b`-guarded pattern `N/10` occurs at character position `j` with
value `n`. -/
def scoreOccursAt (cs : List Char) (j n : Nat) : Prop :=
  ∃ pre numStr post,
    cs = pre ++ numStr ++ ('/' :: '1' :: '0' :: post) ∧ pre.length = j ∧
    numToken numStr n ∧ wordBoundaryLeft pre ∧ wordBoundaryRight post

/-- the character just before position `j` (`none` at the very start). -/
def prevAt (prev : Option Char) (cs : List Char) : Nat → Option Char
  | 0 => prev
  | j + 1 => cs.get? j

theorem numToken_le {numStr : List Char} {n : Nat} (h : numToken numStr n) :
    n ≤ 10 := by
  rcases h with ⟨d, _, hd, rfl⟩ | ⟨_, rfl⟩
  · unfold digitVal
    have h48 : 48 ≤ d.toNat ∧ d.toNat ≤ 57 := by
      simp only [Char.isDigit, Bool.and_eq_true, decide_eq_true_eq] at hd
      obtain ⟨h1, h2⟩ := hd
      unfold Char.toNat
      exact ⟨UInt32.le_toNat_of_le (by decide) h1,
        UInt32.toNat_le_of_le (by decide) h2⟩
    omega
  · exact Nat.le_refl 10

theorem matchTenAt_iff (s : List Char) :
    matchTenAt s = true ↔
      ∃ post, s = '1' :: '0' :: '/' :: '1' :: '0' :: post ∧
        boundaryAfter post = true := by
  constructor
  · intro h
    unfold matchTenAt at h
    split at h
    · rename_i post
      exact ⟨post, rfl, h⟩
    · cases h
  · rintro ⟨post, rfl, h⟩
    simpa [matchTenAt] using h

theorem matchDigitAt_iff (s : List Char) (n : Nat) :
    matchDigitAt s = some n ↔
      ∃ d post, s = d :: '/' :: '1' :: '0' :: post ∧ d.isDigit = true ∧
        boundaryAfter post = true ∧ n = digitVal d := by
  constructor
  · intro h
    unfold matchDigitAt at h
    split at h
    · rename_i d post
      by_cases hc : (d.isDigit && boundaryAfter post) = true
      · rw [if_pos hc] at h
        rcases Bool.and_eq_true _ _ ▸ hc with ⟨h1, h2⟩
        exact ⟨d, post, rfl, h1, h2, (Option.some_inj.mp h).symm⟩
      · rw [if_neg hc] at h
        cases h
    · cases h
  · rintro ⟨d, post, rfl, h1, h2, rfl⟩
    simp [matchDigitAt, h1, h2]

theorem scoreMatchAt_some_iff (prev : Option Char) (s : List Char) (n : Nat) :
    scoreMatchAt prev s = some n ↔
      boundaryBefore prev = true ∧
      ∃ numStr post, s = numStr ++ ('/' :: '1' :: '0' :: post) ∧
        numToken numStr n ∧ boundaryAfter post = true := by
  unfold scoreMatchAt
  by_cases hb : boundaryBefore prev = true
  · rw [if_pos hb]
    constructor
    · intro h
      by_cases hten : matchTenAt s = true
      · rw [if_pos hten] at h
        rcases (matchTenAt_iff s).mp hten with ⟨post, rfl, hpost⟩
        refine ⟨hb, ['1', '0'], post, rfl, Or.inr ⟨rfl, ?_⟩, hpost⟩
        exact (Option.some_inj.mp h).symm
      · rw [if_neg hten] at h
        rcases (matchDigitAt_iff s n).mp h with ⟨d, post, rfl, h1, h2, h3⟩
        exact ⟨hb, [d], post, rfl, Or.inl ⟨d, rfl, h1, h3⟩, h2⟩
    · rintro ⟨-, numStr, post, rfl, htok, hpost⟩
      rcases htok with ⟨d, rfl, hd, rfl⟩ | ⟨rfl, rfl⟩
      · have hten : matchTenAt ([d] ++ '/' :: '1' :: '0' :: post) = false := by
          by_cases h : matchTenAt ([d] ++ '/' :: '1' :: '0' :: post) = true
          · rcases (matchTenAt_iff _).mp h with ⟨post', heq, -⟩
            simp at heq
          · simpa using h
        simp only [List.cons_append, List.nil_append] at hten
        simp only [List.cons_append, List.nil_append, hten, Bool.false_eq_true,
          if_false]
        exact (matchDigitAt_iff _ _).mpr ⟨d, post, by simp, hd, hpost, rfl⟩
      · have hten : matchTenAt (['1', '0'] ++ '/' :: '1' :: '0' :: post) = true :=
          (matchTenAt_iff _).mpr ⟨post, rfl, hpost⟩
        simp only [List.cons_append, List.nil_append] at hten
        simp [hten]
  · rw [if_neg hb]
    constructor
    · intro h
      cases h
    · rintro ⟨hb', -⟩
      exact absurd hb' hb

theorem scoreMatchAt_nil (prev : Option Char) : scoreMatchAt prev [] = none := by
  unfold scoreMatchAt matchTenAt matchDigitAt
  simp

theorem prevAt_shift (prev : Option Char) (c : Char) (rest : List Char) (j : Nat) :
    prevAt (some c) rest j = prevAt prev (c :: rest) (j + 1) := by
  cases j with
  | zero => rfl
  | succ k => rfl

theorem searchScore_none_iff : ∀ (cs : List Char) (prev : Option Char),
    searchScore prev cs = none ↔
      ∀ j, scoreMatchAt (prevAt prev cs j) (cs.drop j) = none := by
  intro cs
  induction cs with
  | nil =>
    intro prev
    simp only [searchScore, List.drop_nil]
    exact ⟨fun _ j => scoreMatchAt_nil _, fun _ => trivial⟩
  | cons c rest ih =>
    intro prev
    constructor
    · intro h j
      unfold searchScore at h
      cases hm : scoreMatchAt prev (c :: rest) with
      | some m => rw [hm] at h; cases h
      | none =>
        rw [hm] at h
        cases j with
        | zero => exact hm
        | succ k =>
          rw [List.drop_succ_cons, ← prevAt_shift prev c rest k]
          exact (ih (some c)).mp h k
    · intro hall
      unfold searchScore
      have h0 := hall 0
      rw [show prevAt prev (c :: rest) 0 = prev from rfl, List.drop_zero] at h0
      rw [h0]
      exact (ih (some c)).mpr (fun k => by
        rw [prevAt_shift prev c rest k]
        exact hall (k + 1))

theorem searchScore_some_iff : ∀ (cs : List Char) (prev : Option Char) (n : Nat),
    searchScore prev cs = some n ↔
      ∃ j, scoreMatchAt (prevAt prev cs j) (cs.drop j) = some n ∧
        ∀ k, k < j → scoreMatchAt (prevAt prev cs k) (cs.drop k) = none := by
  intro cs
  induction cs with
  | nil =>
    intro prev n
    constructor
    · intro h
      cases h
    · rintro ⟨j, hj, -⟩
      rw [List.drop_nil, scoreMatchAt_nil] at hj
      cases hj
  | cons c rest ih =>
    intro prev n
    constructor
    · intro h
      unfold searchScore at h
      cases hm : scoreMatchAt prev (c :: rest) with
      | some m =>
        rw [hm] at h
        refine ⟨0, ?_, fun k hk => absurd hk (Nat.not_lt_zero k)⟩
        rw [show prevAt prev (c :: rest) 0 = prev from rfl, List.drop_zero, hm]
        exact h
      | none =>
        rw [hm] at h
        rcases (ih (some c) n).mp h with ⟨j, hj, hmin⟩
        refine ⟨j + 1, ?_, ?_⟩
        · rw [List.drop_succ_cons, ← prevAt_shift prev c rest j]
          exact hj
        · intro k hk
          cases k with
          | zero =>
            rw [show prevAt prev (c :: rest) 0 = prev from rfl, List.drop_zero]
            exact hm
          | succ k' =>
            rw [List.drop_succ_cons, ← prevAt_shift prev c rest k']
            exact hmin k' (by omega)
    · rintro ⟨j, hj, hmin⟩
      unfold searchScore
      cases j with
      | zero =>
        rw [show prevAt prev (c :: rest) 0 = prev from rfl, List.drop_zero] at hj
        rw [hj]
      | succ j' =>
        have h0 := hmin 0 (Nat.succ_pos j')
        rw [show prevAt prev (c :: rest) 0 = prev from rfl, List.drop_zero] at h0
        rw [h0]
        apply (ih (some c) n).mpr
        rw [List.drop_succ_cons, ← prevAt_shift prev c rest j'] at hj
        refine ⟨j', hj, ?_⟩
        intro k hk
        have := hmin (k + 1) (by omega)
        rw [List.drop_succ_cons, ← prevAt_shift prev c rest k] at this
        exact this

theorem getLast?_take_succ : ∀ (cs : List Char) (k : Nat), k < cs.length →
    (cs.take (k + 1)).getLast? = cs.get? k := by
  intro cs
  induction cs with
  | nil =>
    intro k hk
    simp at hk
  | cons c rest ih =>
    intro k hk
    cases k with
    | zero => rfl
    | succ k' =>
      cases rest with
      | nil => simp at hk
      | cons d rest' =>
        rw [List.take_succ_cons, List.take_succ_cons, List.getLast?_cons_cons,
          ← List.take_succ_cons, List.get?_cons_succ]
        exact ih k' (by simpa using hk)

theorem boundaryAfter_iff (post : List Char) :
    boundaryAfter post = true ↔ wordBoundaryRight post := by
  cases post with
  | nil =>
    constructor
    · intro _ c hc
      simp at hc
    · intro _
      rfl
  | cons p ps =>
    constructor
    · intro h c hc
      rw [show (p :: ps).head? = some p from rfl] at hc
      rw [← Option.some_inj.mp hc]
      simpa [boundaryAfter] using h
    · intro h
      have := h p rfl
      simpa [boundaryAfter] using this

theorem matchAtPos_iff_occurs (cs : List Char) (j n : Nat) :
    scoreMatchAt (prevAt none cs j) (cs.drop j) = some n ↔ scoreOccursAt cs j n := by
  rw [scoreMatchAt_some_iff]
  constructor
  · rintro ⟨hb, numStr, post, hdrop, htok, hpost⟩
    have hjlt : j < cs.length := by
      by_contra hge
      push_neg at hge
      rw [List.drop_eq_nil_of_le hge] at hdrop
      rcases htok with ⟨d, rfl, -, -⟩ | ⟨rfl, -⟩ <;> simp at hdrop
    refine ⟨cs.take j, numStr, post, ?_, ?_, htok, ?_, (boundaryAfter_iff post).mp hpost⟩
    · conv_lhs => rw [← List.take_append_drop j cs]
      rw [hdrop, List.append_assoc]
    · rw [List.length_take]
      omega
    · intro ch hch
      cases j with
      | zero => simp at hch
      | succ k =>
        rw [getLast?_take_succ cs k (by omega)] at hch
        have hp : prevAt none cs (k + 1) = some ch := hch
        rw [hp] at hb
        simpa [boundaryBefore] using hb
  · rintro ⟨pre, numStr, post, hcs, hlen, htok, hleft, hright⟩
    have hdrop : cs.drop j = numStr ++ ('/' :: '1' :: '0' :: post) := by
      rw [hcs, List.append_assoc, ← hlen, List.drop_left]
    refine ⟨?_, numStr, post, hdrop, htok, (boundaryAfter_iff post).mpr hright⟩
    cases j with
    | zero => rfl
    | succ k =>
      have hprenil : pre ≠ [] := by
        intro hnil
        rw [hnil] at hlen
        cases hlen
      have hklt : k < pre.length := by omega
      have hget : cs.get? k = pre.get? k := by
        rw [hcs, List.append_assoc]
        exact List.get?_append hklt
      have hlast : pre.getLast? = pre.get? k := by
        rw [List.getLast?_eq_get? pre]
        congr 1
        omega
      rcases List.get?_eq_get hklt with hsome
      rw [show prevAt none cs (k + 1) = cs.get? k from rfl, hget, hsome]
      have := hleft (pre.get ⟨k, hklt⟩) (by rw [hlast, hsome])
      simpa [boundaryBefore] using this

/-- C8: for every feedback text, score extraction returns the value `N` of
the first occurrence of the `\b`-guarded pattern `N/10` with `N` in 0..10
(the regex group accepts a single digit or `10`), it returns `none` — the
function is total, never an error — exactly when no such occurrence exists
anywhere in the text, and the extracted value never exceeds 10; concretely
`"Overall score: 7/10"` yields 7 and a text with no pattern yields
`none`. -/
theorem score_extraction :
    (∀ (s : String) (n : Nat),
       extractScore s = some n ↔
         ∃ j, scoreOccursAt s.data j n ∧
           ∀ k, k < j → ∀ m, ¬scoreOccursAt s.data k m) ∧
    (∀ s : String, extractScore s = none ↔ ∀ j n, ¬scoreOccursAt s.data j n) ∧
    (∀ (s : String) (n : Nat), extractScore s = some n → n ≤ 10) ∧
    extractScore "Overall score: 7/10" = some 7 ∧
    extractScore "No mark was produced." = none := by
  have hocc_le : ∀ (cs : List Char) (j n : Nat), scoreOccursAt cs j n → n ≤ 10 := by
    rintro cs j n ⟨pre, numStr, post, -, -, htok, -, -⟩
    exact numToken_le htok
  refine ⟨?_, ?_, ?_, by decide, by decide⟩
  · intro s n
    unfold extractScore
    constructor
    · intro h
      cases hs : searchScore none s.data with
      | none =>
        simp only [hs] at h
        cases h
      | some v =>
        simp only [hs] at h
        by_cases hv : v ≤ 10
        · rw [if_pos hv] at h
          have hvn : v = n := Option.some_inj.mp h
          subst hvn
          rcases (searchScore_some_iff s.data none v).mp hs with ⟨j, hj, hmin⟩
          refine ⟨j, (matchAtPos_iff_occurs s.data j v).mp hj, ?_⟩
          intro k hk m hocc
          have hm := (matchAtPos_iff_occurs s.data k m).mpr hocc
          rw [hmin k hk] at hm
          cases hm
        · rw [if_neg hv] at h
          cases h
    · rintro ⟨j, hocc, hmin⟩
      have hj := (matchAtPos_iff_occurs s.data j n).mpr hocc
      have hmin' : ∀ k, k < j →
          scoreMatchAt (prevAt none s.data k) (s.data.drop k) = none := by
        intro k hk
        cases hm : scoreMatchAt (prevAt none s.data k) (s.data.drop k) with
        | none => rfl
        | some m =>
          exact absurd ((matchAtPos_iff_occurs s.data k m).mp hm) (hmin k hk m)
      simp only [(searchScore_some_iff s.data none n).mpr ⟨j, hj, hmin'⟩,
        if_pos (hocc_le s.data j n hocc)]
  · intro s
    unfold extractScore
    constructor
    · intro h j n hocc
      cases hs : searchScore none s.data with
      | some v =>
        rcases (searchScore_some_iff s.data none v).mp hs with ⟨j', hj', -⟩
        have hocc' := (matchAtPos_iff_occurs s.data j' v).mp hj'
        simp only [hs, if_pos (hocc_le s.data j' v hocc')] at h
        cases h
      | none =>
        have hnone := (searchScore_none_iff s.data none).mp hs j
        have hm := (matchAtPos_iff_occurs s.data j n).mpr hocc
        rw [hnone] at hm
        cases hm
    · intro hall
      cases hs : searchScore none s.data with
      | none => simp only [hs]
      | some v =>
        exfalso
        rcases (searchScore_some_iff s.data none v).mp hs with ⟨j, hj, -⟩
        exact hall j v ((matchAtPos_iff_occurs s.data j v).mp hj)
  · intro s n h
    unfold extractScore at h
    cases hs : searchScore none s.data with
    | none =>
      simp only [hs] at h
      cases h
    | some v =>
      simp only [hs] at h
      by_cases hv : v ≤ 10
      · rw [if_pos hv] at h
        rw [← Option.some_inj.mp h]
        exact hv
      · rw [if_neg hv] at h
        cases h

/-- C8 witness. -/
theorem score_extraction_witness :
    extractScore "Overall score: 7/10" = some 7 ∧
    scoreOccursAt "Overall score: 7/10".data 15 7 := by
  constructor
  · rcases score_extraction with ⟨-, -, -, h, -⟩
    exact h
  · refine (matchAtPos_iff_occurs _ 15 7).mp ?_
    decide

end VivaPipeline
